import Mathlib

/-!
Verification of the XAI alert-triage core: a shallow embedding of
`src/features.py`, `src/policy.py`, `src/model_api/policy.py` and
`src/model.py` into Lean 4, plus theorems settling the specification
claims about canonicalization, feature extraction, the policy engine
and the explanation ranker.

Modelling conventions:
* Python values are modelled by the inductive type `PyVal`
  (None, bool, int, float, str, list, dict).  Python dicts are
  insertion-ordered association lists with string keys; key lookup
  returns the first matching entry and assignment replaces in place,
  which matches Python dict semantics for dictionaries built without
  duplicate keys.
* Python floats are modelled by `ℚ`.  IEEE NaN/infinity and the exact
  decimal rendering of non-integral floats are outside the model; no
  claim below depends on them.
* A Python function that can raise is modelled in the `Option` monad:
  `none` means "an exception escapes", `some v` means "returns v".
* `str()` of containers is rendered by a placeholder (no claim depends
  on the rendering of containers), `str()` of scalars is faithful
  (`str(3.0) = "3.0"`, `str(True) = "True"`, `str(None) = "None"`).
-/

set_option maxHeartbeats 4000000

namespace XAI

/-- Model of a Python value (the JSON/YAML-like data the program handles). -/
inductive PyVal where
  | none
  | bool (b : Bool)
  | int (n : ℤ)
  | float (q : ℚ)
  | str (s : String)
  | list (xs : List PyVal)
  | dict (kvs : List (String × PyVal))
deriving Repr

/-- Python truthiness: `bool(v)`. -/
def pyTruthy : PyVal → Bool
  | .none => false
  | .bool b => b
  | .int n => n != 0
  | .float q => q != 0
  | .str s => s ≠ ""
  | .list xs => !xs.isEmpty
  | .dict kvs => !kvs.isEmpty

/-- Python `a or b` (returns `a` when truthy, else `b`). -/
def pyOr (a b : PyVal) : PyVal := if pyTruthy a then a else b

/-- Exception-propagating sequencing: `obind x g` runs `g` on the value of
`x` unless `x` raised (the `Option` monad's bind, kept as a plain definition
of its own). -/
def obind {α β : Type} (x : Option α) (g : α → Option β) : Option β :=
  match x with
  | Option.none => Option.none
  | some a => g a

/-! Boolean comparisons on `ℚ`.  The embedding uses these (rather than the
ambient `Decidable` instances for `≤`, `max`, `min`, which are classical
and do not reduce) so that concrete runs of the embedded code evaluate
inside the kernel. -/

/-- Boolean `a < b` on `ℚ`. -/
def qlt (a b : ℚ) : Bool := decide (a < b)

/-- Boolean `a ≤ b` on `ℚ`. -/
def qle (a b : ℚ) : Bool := !(decide (b < a))

/-- Python `max` on two rationals. -/
def qmax (a b : ℚ) : ℚ := if a < b then b else a

/-- Python `min` on two rationals. -/
def qmin (a b : ℚ) : ℚ := if b < a then b else a

theorem qlt_iff {a b : ℚ} : qlt a b = true ↔ a < b := by simp [qlt]

theorem qle_iff {a b : ℚ} : qle a b = true ↔ a ≤ b := by simp [qle, not_lt]

theorem qle_false_iff {a b : ℚ} : qle a b = false ↔ b < a := by simp [qle]

theorem qmax_eq_max (a b : ℚ) : qmax a b = max a b := by
  unfold qmax
  split_ifs with h
  · exact (max_eq_right h.le).symm
  · exact (max_eq_left (not_lt.mp h)).symm

theorem qmin_eq_min (a b : ℚ) : qmin a b = min a b := by
  unfold qmin
  split_ifs with h
  · exact (min_eq_right h.le).symm
  · exact (min_eq_left (not_lt.mp h)).symm

/-! Character-level string operations.  The embedding implements
`lower`/`upper`/`strip`/`split`/`replace`/`startswith`/`endswith` directly
on character lists (ASCII model of Python's semantics): the resulting terms
reduce well inside the kernel, which the evaluation witnesses need. -/

/-- Python whitespace stripped by `str.strip()` (ASCII). -/
def isSpaceChar (c : Char) : Bool :=
  c == ' ' || c == '\t' || c == '\n' || c == '\r' || c == '\x0b' || c == '\x0c'

/-- Strip leading and trailing whitespace from a character list. -/
def charTrim (l : List Char) : List Char :=
  ((l.dropWhile isSpaceChar).reverse.dropWhile isSpaceChar).reverse

/-- Python `s.strip()`. -/
def strTrim (s : String) : String := String.mk (charTrim s.data)

/-- ASCII `str.lower()` of one character. -/
def lowerChar (c : Char) : Char :=
  if 'A' ≤ c ∧ c ≤ 'Z' then Char.ofNat (c.toNat + 32) else c

/-- ASCII `str.upper()` of one character. -/
def upperChar (c : Char) : Char :=
  if 'a' ≤ c ∧ c ≤ 'z' then Char.ofNat (c.toNat - 32) else c

/-- Python `s.lower()` (ASCII model). -/
def strLower (s : String) : String := String.mk (s.data.map lowerChar)

/-- Python `s.upper()` (ASCII model). -/
def strUpper (s : String) : String := String.mk (s.data.map upperChar)

/-- Is `pre` a prefix of `l`? -/
def isPre : List Char → List Char → Bool
  | [], _ => true
  | _ :: _, [] => false
  | a :: as, b :: bs => a == b && isPre as bs

/-- Python `s.startswith(p)`. -/
def strStarts (s p : String) : Bool := isPre p.data s.data

/-- Python `s.endswith(p)`. -/
def strEnds (s p : String) : Bool := isPre p.data.reverse s.data.reverse

/-- Does `needle` occur in `hay`?  (Python `needle in hay`.) -/
def containsChars (needle : List Char) : List Char → Bool
  | [] => needle.isEmpty
  | c :: rest => isPre needle (c :: rest) || containsChars needle rest

/-- Substring test, Python `needle in hay`. -/
def strContains (hay needle : String) : Bool :=
  containsChars needle.data hay.data

/-- Split on every leftmost non-overlapping occurrence of `sep` (nonempty);
the accumulator holds the current piece reversed.  The fuel argument (always
called with more fuel than characters, so the `0` case is unreachable) keeps
the recursion structural, so that the definition reduces in the kernel. -/
def splitCharsAux (sep : List Char) : Nat → List Char → List Char → List (List Char)
  | _, [], acc => [acc.reverse]
  | 0, cs, acc => [acc.reverse ++ cs]
  | fuel + 1, c :: rest, acc =>
      if isPre sep (c :: rest) then
        acc.reverse :: splitCharsAux sep fuel (rest.drop (sep.length - 1)) []
      else
        splitCharsAux sep fuel rest (c :: acc)

/-- Python `s.split(sep)` for nonempty `sep`
(`String.splitOn` semantics; no embedded call uses an empty separator). -/
def strSplitOn (s sep : String) : List String :=
  if sep.data.isEmpty then [s]
  else (splitCharsAux sep.data (s.data.length + 1) s.data []).map String.mk

/-- Split at the first occurrence of `sep` (`s.split(sep, 1)` when `sep`
occurs; `none` when it does not). -/
def splitOnceChars (sep : List Char) : List Char → Option (List Char × List Char)
  | [] => Option.none
  | c :: rest =>
      if isPre sep (c :: rest) then some ([], rest.drop (sep.length - 1))
      else match splitOnceChars sep rest with
        | some (l, r) => some (c :: l, r)
        | Option.none => Option.none

/-- Replace every leftmost non-overlapping occurrence of nonempty `pat`
(fuel-structural as in `splitCharsAux`; the `0` case is unreachable). -/
def replaceChars (pat rep : List Char) : Nat → List Char → List Char
  | _, [] => []
  | 0, cs => cs
  | fuel + 1, c :: rest =>
      if isPre pat (c :: rest) then
        rep ++ replaceChars pat rep fuel (rest.drop (pat.length - 1))
      else c :: replaceChars pat rep fuel rest

/-- Python `s.replace(pat, rep)` for nonempty `pat`. -/
def strReplace (s pat rep : String) : String :=
  if pat.data.isEmpty then s
  else String.mk (replaceChars pat.data rep.data (s.data.length + 1) s.data)

/-- Python `" ".join`-style intercalation. -/
def strIntercalate (sep : String) : List String → String
  | [] => ""
  | [x] => x
  | x :: xs => x ++ sep ++ strIntercalate sep xs

mutual

/-- Python `==` on values.  Numbers (bool/int/float) compare across types,
as in Python; container comparison is structural (Python also compares
elementwise; cross-type numeric equality inside containers is not needed
by any claim). -/
def pyEq : PyVal → PyVal → Bool
  | .none, .none => true
  | .bool a, .bool b => a == b
  | .bool a, .int n => (if a then (1 : ℤ) else 0) == n
  | .bool a, .float q => (if a then (1 : ℚ) else 0) == q
  | .int n, .bool b => n == (if b then (1 : ℤ) else 0)
  | .float q, .bool b => q == (if b then (1 : ℚ) else 0)
  | .int m, .int n => m == n
  | .int m, .float q => (m : ℚ) == q
  | .float q, .int n => q == (n : ℚ)
  | .float p, .float q => p == q
  | .str s, .str t => s == t
  | .list xs, .list ys => pyEqList xs ys
  | .dict xs, .dict ys => pyEqPairs xs ys
  | _, _ => false

def pyEqList : List PyVal → List PyVal → Bool
  | [], [] => true
  | x :: xs, y :: ys => pyEq x y && pyEqList xs ys
  | _, _ => false

def pyEqPairs : List (String × PyVal) → List (String × PyVal) → Bool
  | [], [] => true
  | (k, v) :: xs, (k', v') :: ys => k == k' && pyEq v v' && pyEqPairs xs ys
  | _, _ => false

end

/-- First-match lookup in an insertion-ordered dict. -/
def dget {α : Type} : List (String × α) → String → Option α
  | [], _ => Option.none
  | (k, v) :: rest, key => if k = key then some v else dget rest key

/-- Python `d[k] = v`: replace in place when the key exists, else append. -/
def dinsert {α : Type} : List (String × α) → String → α → List (String × α)
  | [], k, v => [(k, v)]
  | (k', v') :: rest, k, v =>
      if k' = k then (k', v) :: rest else (k', v') :: dinsert rest k v

/-- Python `v.get(key, default)`: defined only on dicts
(`AttributeError`, i.e. `none`, otherwise). -/
def pyGet (v : PyVal) (key : String) (dflt : PyVal) : Option PyVal :=
  match v with
  | .dict kvs => some ((dget kvs key).getD dflt)
  | _ => Option.none

/-- View a value as a dict, raising (`none`) otherwise.  Used where the
source repeatedly calls `.get` on one unchanging local: the first `.get`
on a non-mapping raises `AttributeError`, so checking once is equivalent. -/
def asDict : PyVal → Option (List (String × PyVal))
  | .dict kvs => some kvs
  | _ => Option.none

/-- Python `s.lower()`: defined only on strings. -/
def pyLower : PyVal → Option String
  | .str s => some (strLower s)
  | _ => Option.none

/-- Python iteration (`for x in v`): lists yield elements, strings yield
one-character strings, dicts yield their keys; other values raise. -/
def pyIter : PyVal → Option (List PyVal)
  | .list xs => some xs
  | .str s => some (s.data.map fun c => .str (String.singleton c))
  | .dict kvs => some (kvs.map fun kv => .str kv.1)
  | _ => Option.none


/-- Digits of an ASCII-decimal string as a natural number. -/
def digitsToNat (cs : List Char) : ℕ
  := cs.foldl (fun acc c => acc * 10 + (c.toNat - 48)) 0

/-- Python `s.isdigit()` (ASCII model). -/
def isPyDigit (s : String) : Bool :=
  s ≠ "" && s.data.all Char.isDigit

/-- Python `int(s)` on a string: optional surrounding whitespace, optional
sign, decimal digits.  (Underscore separators are outside the model.) -/
def parseIntLit (s : String) : Option ℤ :=
  let cs := charTrim s.data
  match cs with
  | '+' :: rest =>
      if rest ≠ [] && rest.all Char.isDigit then some (digitsToNat rest) else Option.none
  | '-' :: rest =>
      if rest ≠ [] && rest.all Char.isDigit then some (-(digitsToNat rest : ℤ)) else Option.none
  | _ =>
      if cs ≠ [] && cs.all Char.isDigit then some (digitsToNat cs) else Option.none

/-- Mantissa of a Python float literal: `digits [. digits*]` or `. digits+`. -/
def parseMantissa (cs : List Char) : Option ℚ :=
  let ip := cs.takeWhile (· ≠ '.')
  let rest := cs.dropWhile (· ≠ '.')
  match rest with
  | [] =>
      if ip ≠ [] && ip.all Char.isDigit then some (digitsToNat ip : ℚ) else Option.none
  | _ :: fp =>
      if (ip ≠ [] || fp ≠ []) && ip.all Char.isDigit && fp.all Char.isDigit then
        some ((digitsToNat ip : ℚ) + (digitsToNat fp : ℚ) / (10 : ℚ) ^ fp.length)
      else Option.none

/-- Exponent part of a float literal (after `e`/`E`). -/
def parseExpPart (cs : List Char) : Option ℤ :=
  match cs with
  | '+' :: ds => if ds ≠ [] && ds.all Char.isDigit then some (digitsToNat ds) else Option.none
  | '-' :: ds => if ds ≠ [] && ds.all Char.isDigit then some (-(digitsToNat ds : ℤ)) else Option.none
  | ds => if ds ≠ [] && ds.all Char.isDigit then some (digitsToNat ds) else Option.none

/-- Python `float(s)` on a string: optional whitespace, optional sign,
mantissa, optional exponent.  (`inf`/`nan` literals are outside the model.) -/
def parseFloat (s : String) : Option ℚ :=
  let cs := charTrim s.data
  let signed : ℚ × List Char :=
    match cs with
    | '+' :: r => (1, r)
    | '-' :: r => (-1, r)
    | _ => (1, cs)
  let mant := signed.2.takeWhile (fun c => c ≠ 'e' && c ≠ 'E')
  let erest := signed.2.dropWhile (fun c => c ≠ 'e' && c ≠ 'E')
  match erest with
  | [] => (parseMantissa mant).map (fun m => signed.1 * m)
  | _ :: etail => do
      let m ← parseMantissa mant
      let e ← parseExpPart etail
      some (signed.1 * m * (10 : ℚ) ^ e)

/-- Truncation toward zero, Python `int(float)`. -/
def pyTruncQ (q : ℚ) : ℤ := if q < 0 then ⌈q⌉ else ⌊q⌋

/-- Python `int(x)` applied directly to a value. -/
def pyToInt : PyVal → Option ℤ
  | .bool b => some (if b then 1 else 0)
  | .int n => some n
  | .float q => some (pyTruncQ q)
  | .str s => parseIntLit s
  | _ => Option.none

/-- Python `float(x)` applied directly to a value
(`bool` is an `int` subclass in Python, so `float(True) = 1.0`). -/
def pyToFloat : PyVal → Option ℚ
  | .bool b => some (if b then 1 else 0)
  | .int n => some (n : ℚ)
  | .float q => some q
  | .str s => parseFloat s
  | _ => Option.none

/-- Python `str(x)`.  Scalars are rendered faithfully; containers get a
placeholder rendering (their exact rendering never reaches a comparison
in the embedded code paths). -/
def pyStr : PyVal → String
  | .none => "None"
  | .bool b => if b then "True" else "False"
  | .int n => toString n
  | .float q => if q.den = 1 then toString q.num ++ ".0" else toString q
  | .str s => s
  | .list _ => "[...]"
  | .dict _ => "(...)"

/-- `features.py` `_to_int(x, default)`: `int(str(x))` with a fallback.
`str` of a float always carries a decimal point or exponent, so floats
(and bools, None, containers) fall back to the default. -/
def _to_int (x : PyVal) (dflt : ℤ) : ℤ :=
  match x with
  | .int n => n
  | .str s => (parseIntLit s).getD dflt
  | _ => dflt

/-- `features.py` `_to_float(x, default)`: `float(str(x))` with a fallback
(`str` of a bool is "True"/"False", which does not parse). -/
def _to_float (x : PyVal) (dflt : ℚ) : ℚ :=
  match x with
  | .int n => (n : ℚ)
  | .float q => q
  | .str s => (parseFloat s).getD dflt
  | _ => dflt

/-- `features.py` `_severity_to_ord(sev)`: numeric levels (ints, floats and
digit strings) are banded at 12/9/6; other strings map the severity words;
everything else maps to 0. -/
def _severity_to_ord (sev : PyVal) : ℤ :=
  let numeric : Option ℤ :=
    match sev with
    | .bool b => some (if b then 1 else 0)
    | .int n => some n
    | .float q => some (pyTruncQ q)
    | .str s => if isPyDigit s then some (digitsToNat s.data : ℤ) else Option.none
    | _ => Option.none
  match numeric with
  | some lvl => if lvl ≥ 12 then 3 else if lvl ≥ 9 then 2 else if lvl ≥ 6 then 1 else 0
  | Option.none =>
      let s := strLower (strTrim (pyStr (pyOr sev (.str ""))))
      if s = "critical" then 3 else if s = "high" then 2 else if s = "medium" then 1 else 0

/-- `features.py` `SENSITIVE_PORTS`. -/
def SENSITIVE_PORTS : List ℤ := [22, 3389, 5985, 5986, 445]

/-- `features.py` `ADMIN_SERVICES`. -/
def ADMIN_SERVICES : List String := ["SSH", "RDP", "WINRM", "WMI"]

/-- `features.py` `_norm_service(port, service)`; raises when the service
value is truthy but not a string (`.strip()` on a non-string). -/
def _norm_service (port : ℤ) (service : PyVal) : Option String :=
  obind (match pyOr service (.str "") with
    | .str s => some (strUpper (strTrim s))
    | _ => Option.none) fun svc =>
  some (if port == 22 || svc == "SSH" then "SSH"
    else if port == 3389 || svc == "RDP" then "RDP"
    else if port == 5985 || port == 5986 || svc == "WINRM" || svc == "WMI" then "WINRM"
    else if port == 161 || svc == "SNMP" then "SNMP"
    else if port == 80 || port == 443 || svc == "HTTP" || svc == "HTTPS" then
      (if port == 443 then "HTTPS" else "HTTP")
    else if port == 53 || svc == "DNS" then "DNS"
    else if port == 25 || svc == "SMTP" || svc == "SMTPS" then "SMTP"
    else if svc ≠ "" then svc else "NA")

/-- A normalized feature-map triple `(name, path, default)`. -/
structure FeatSpec where
  name : String
  path : String
  default : PyVal
deriving Repr

/-- One list-shaped feature entry of `_norm_features_spec` (shapes A/B). -/
def normListItem (item : PyVal) : Option FeatSpec :=
  match item with
  | .dict kvs =>
      let nameV := pyOr ((dget kvs "name").getD .none) ((dget kvs "path").getD .none)
      let pathV := pyOr ((dget kvs "path").getD .none) ((dget kvs "name").getD .none)
      if !pyTruthy nameV || !pyTruthy pathV then Option.none
      else some ⟨pyStr nameV, pyStr pathV, (dget kvs "default").getD (.int 0)⟩
  | .str s => some ⟨s, s, .int 0⟩
  | _ => Option.none

/-- One flat-dict feature entry of `_norm_features_spec` (shape C). -/
def normFlatItem (nm : String) (spec : PyVal) : Option FeatSpec :=
  match spec with
  | .str p => some ⟨nm, p, .int 0⟩
  | .dict kvs =>
      some ⟨nm, pyStr (pyOr ((dget kvs "path").getD .none) (.str nm)),
            (dget kvs "default").getD (.int 0)⟩
  | _ => Option.none

/-- One nested-section feature entry of `_norm_features_spec` (shape D). -/
def normNestedItem (nm : String) (spec : PyVal) : FeatSpec :=
  match spec with
  | .dict kvs =>
      ⟨nm, pyStr (pyOr ((dget kvs "path").getD .none) (.str nm)),
       (dget kvs "default").getD (.int 0)⟩
  | _ => ⟨nm, nm, .int 0⟩

/-- `features.py` `_norm_features_spec(fmap)`: normalize any of the four
accepted shapes into an ordered `(name, path, default)` list; `none`
models the `RuntimeError` raised on structurally invalid input. -/
def _norm_features_spec (fmap : PyVal) : Option (List FeatSpec) :=
  obind (pyGet fmap "features" .none) fun feats =>
  match feats with
  | .none => Option.none
  | .list items => items.mapM normListItem
  | .dict kvs =>
      if kvs.all (fun kv => match kv.2 with
          | .dict sub => (dget sub "path").isSome
          | _ => true) then
        kvs.mapM (fun kv => normFlatItem kv.1 kv.2)
      else
        some (kvs.foldl (fun acc kv =>
          match kv.2 with
          | .dict sub => acc ++ sub.map (fun nv => normNestedItem nv.1 nv.2)
          | _ => acc) [])
  | _ => Option.none

/-- `features.py` `_platform_flags(source)`. -/
def _platform_flags (src : String) : List (String × PyVal) :=
  [("pf_win", .int (if strContains src "windows" || strContains src "win" then 1 else 0)),
   ("pf_lin", .int (if strContains src "linux" then 1 else 0)),
   ("pf_nw", .int (if ["fortigate", "cisco", "unifi", "firewall", "router", "switch"].any
        (fun k => strContains src k) then 1 else 0)),
   ("pf_osks", .int (if strContains src "openstack" then 1 else 0))]

/-- `(alert.get(field, {}) or {}).get("name", "").lower()`, the pattern
`_detect_source` uses for the decoder and agent names. -/
def lowerNameOf (alert : PyVal) (field : String) : Option String :=
  obind (pyGet alert field (.dict [])) fun v0 =>
  obind (pyGet (pyOr v0 (.dict [])) "name" (.str "")) fun nm =>
  pyLower nm

/-- `[g.lower() for g in (alert.get("rule", {}) or {}).get("groups", []) or []]`. -/
def lowerGroupsOf (alert : PyVal) : Option (List String) :=
  obind (pyGet alert "rule" (.dict [])) fun r0 =>
  obind (pyGet (pyOr r0 (.dict [])) "groups" (.list [])) fun g0 =>
  obind (pyIter (pyOr g0 (.list []))) fun elems =>
  elems.mapM pyLower

/-- `features.py` `_detect_source(alert)`: the priority cascade over
decoder name, rule groups and agent name.  Note that the Windows check
dereferences `alert.get("win", {})` without an `or {}` guard. -/
def _detect_source (alert : PyVal) : Option String :=
  obind (lowerNameOf alert "decoder") fun dec =>
  obind (lowerGroupsOf alert) fun groups =>
  obind (lowerNameOf alert "agent") fun agent =>
  let full := dec ++ " " ++ strIntercalate " " groups ++ " " ++ agent
  if ["fortigate", "cisco", "unifi", "asa", "firewall", "router", "switch"].any
      (fun k => strContains full k) then
    some (if strContains full "fortigate" then "fortigate"
      else if strContains full "cisco" || strContains full "asa" then "cisco"
      else "unifi")
  else if strContains full "windows" || strContains dec "win" || strContains agent "win" then
    some "windows"
  else
    obind (pyGet alert "win" (.dict [])) fun w =>
    obind (pyGet w "event" .none) fun ev =>
    if pyTruthy ev then some "windows"
    else if strContains full "linux" then some "linux"
    else if ["openstack", "nova", "keystone", "neutron"].any (fun k => strContains full k) then
      some "openstack"
    else
      obind (pyGet alert "data" (.dict [])) fun d0 =>
      obind (pyGet (pyOr d0 (.dict [])) "devid" .none) fun devid =>
      if pyTruthy devid then some "fortigate"
      else
        obind (pyGet alert "data" (.dict [])) fun d1 =>
        obind (pyGet (pyOr d1 (.dict [])) "subtype" .none) fun st =>
        if pyEq st (.str "ips") then some "fortigate" else some "generic"

/-- Values of the network-style canonical record
(shared by `_map_network_like` and `_map_generic`). -/
structure NetFields where
  src_ip : PyVal
  dst_ip : PyVal
  src_port : ℤ
  dst_port : ℤ
  proto : PyVal
  bytes_sent : ℤ
  bytes_recv : ℤ
  duration_sec : ℤ
  rule_level : ℤ
  severity_ord : ℤ
  action : String
  threat_family : String
  service_label : String
  user : PyVal
  host : PyVal

/-- The value computations of `features.py` `_map_network_like(alert)`. -/
def _map_network_like_vals (alert : PyVal) : Option NetFields :=
  obind (pyGet alert "data" (.dict [])) fun dv =>
  obind (asDict (pyOr dv (.dict []))) fun d =>
  obind (pyGet alert "rule" (.dict [])) fun rv =>
  obind (asDict (pyOr rv (.dict []))) fun r =>
  let dst_port := _to_int ((dget d "dstport").getD .none) 0
  obind (_norm_service dst_port ((dget d "service").getD (.str ""))) fun svc =>
  obind (pyLower (pyOr ((dget d "action").getD .none) (.str ""))) fun actStr =>
  obind (pyLower (pyOr ((dget d "subtype").getD .none) (.str "na"))) fun subStr =>
  let devV := (dget d "devname").getD .none
  obind (if pyTruthy devV then some devV
    else obind (pyGet alert "agent" (.dict [])) fun ag0 =>
         pyGet (pyOr ag0 (.dict [])) "name" (.str "")) fun host =>
  let sevV := (dget d "severity").getD .none
  let levelV := (dget r "level").getD .none
  some { src_ip := pyOr ((dget d "srcip").getD .none) ((dget d "src").getD .none)
         dst_ip := pyOr ((dget d "dstip").getD .none) ((dget d "dst").getD .none)
         src_port := _to_int ((dget d "srcport").getD .none) 0
         dst_port := dst_port
         proto := pyOr (pyOr ((dget d "proto").getD .none) ((dget d "proto_name").getD .none))
           (.str "na")
         bytes_sent := _to_int ((dget d "sentbyte").getD .none) 0
         bytes_recv := _to_int ((dget d "rcvdbyte").getD .none) 0
         duration_sec := _to_int ((dget d "duration").getD .none) 0
         rule_level := _to_int levelV 0
         severity_ord := _severity_to_ord (match sevV with | .none => levelV | _ => sevV)
         action := actStr
         threat_family := subStr
         service_label := svc
         user := pyOr ((dget d "srcuser").getD .none) (.str "")
         host := host }

/-- `features.py` `_map_network_like(alert)`. -/
def _map_network_like (alert : PyVal) : Option (List (String × PyVal)) :=
  (_map_network_like_vals alert).map fun v =>
    [("src_ip", v.src_ip), ("dst_ip", v.dst_ip),
     ("src_port", .int v.src_port), ("dst_port", .int v.dst_port),
     ("proto", v.proto),
     ("bytes_sent", .int v.bytes_sent), ("bytes_recv", .int v.bytes_recv),
     ("duration_sec", .int v.duration_sec),
     ("rule_level", .int v.rule_level), ("severity_ord", .int v.severity_ord),
     ("action", .str v.action), ("threat_family", .str v.threat_family),
     ("service_label", .str v.service_label),
     ("user", v.user), ("host", v.host),
     ("platform_source", .str "network")]

/-- Values of the Windows canonical record. -/
structure WinFields where
  src_ip : PyVal
  src_port : ℤ
  rule_level : ℤ
  auth_result : ℤ
  service_label : String
  logon_type : String
  user : PyVal
  host : PyVal

/-- The value computations of `features.py` `_map_windows(alert)`. -/
def _map_windows_vals (alert : PyVal) : Option WinFields :=
  obind (pyGet alert "win" (.dict [])) fun w0 =>
  obind (pyGet (pyOr w0 (.dict [])) "event" (.dict [])) fun ev0 =>
  obind (asDict (pyOr ev0 (.dict []))) fun win =>
  let code := pyStr (pyOr ((dget win "code").getD .none) (.str ""))
  let logon_type := pyStr (pyOr (pyOr ((dget win "LogonType").getD .none)
    ((dget win "logon_type").getD .none)) (.str ""))
  let service_label := if logon_type = "10" ∨ logon_type = "7" then "RDP" else "NA"
  obind (pyGet alert "rule" (.dict [])) fun r0 =>
  obind (pyGet (pyOr r0 (.dict [])) "level" .none) fun levelV =>
  obind (pyGet alert "agent" (.dict [])) fun ag0 =>
  obind (pyGet (pyOr ag0 (.dict [])) "name" (.str "")) fun agname =>
  some { src_ip := pyOr ((dget win "IpAddress").getD .none) (.str "")
         src_port := _to_int ((dget win "IpPort").getD .none) 0
         rule_level := _to_int levelV 0
         auth_result := if code = "4624" then 1 else if code = "4625" then 0 else -1
         service_label := service_label
         logon_type := if logon_type = "" then "na" else logon_type
         user := pyOr (pyOr ((dget win "TargetUserName").getD .none)
           ((dget win "AccountName").getD .none)) (.str "")
         host := agname }

/-- `features.py` `_map_windows(alert)`. -/
def _map_windows (alert : PyVal) : Option (List (String × PyVal)) :=
  (_map_windows_vals alert).map fun v =>
    [("src_ip", v.src_ip), ("dst_ip", .str ""),
     ("src_port", .int v.src_port),
     ("dst_port", .int (if v.service_label = "RDP" then 3389 else 0)),
     ("proto", .str "tcp"),
     ("bytes_sent", .int 0), ("bytes_recv", .int 0), ("duration_sec", .int 0),
     ("rule_level", .int v.rule_level), ("severity_ord", .int 0),
     ("action", .str "na"), ("threat_family", .str "auth"),
     ("service_label", .str v.service_label),
     ("user", v.user), ("host", v.host),
     ("platform_source", .str "windows"),
     ("auth_result", .int v.auth_result),
     ("logon_type", .str v.logon_type)]

/-- Values of the Linux canonical record. -/
structure LinFields where
  dst_port : ℤ
  rule_level : ℤ
  auth_result : ℤ
  threat_family : String
  service_label : String
  host : PyVal

/-- The value computations of `features.py` `_map_linux(alert)`. -/
def _map_linux_vals (alert : PyVal) : Option LinFields :=
  obind (pyGet alert "full_log" .none) fun flV =>
  obind (pyLower (pyOr flV (.str ""))) fun msg =>
  obind (pyGet alert "rule" (.dict [])) fun r0 =>
  obind (pyGet (pyOr r0 (.dict [])) "level" .none) fun levelV =>
  obind (pyGet alert "agent" (.dict [])) fun ag0 =>
  obind (pyGet (pyOr ag0 (.dict [])) "name" (.str "")) fun agname =>
  some { dst_port := if strContains msg "sshd" then 22 else 0
         rule_level := _to_int levelV 0
         auth_result := if strContains msg "accepted password" then 1
           else if strContains msg "failed password" then 0 else -1
         threat_family := if strContains msg "sshd" then "auth" else "na"
         service_label := if strContains msg "sshd" then "SSH" else "NA"
         host := agname }

/-- `features.py` `_map_linux(alert)`. -/
def _map_linux (alert : PyVal) : Option (List (String × PyVal)) :=
  (_map_linux_vals alert).map fun v =>
    [("src_ip", .str ""), ("dst_ip", .str ""),
     ("src_port", .int 0), ("dst_port", .int v.dst_port),
     ("proto", .str "tcp"),
     ("bytes_sent", .int 0), ("bytes_recv", .int 0), ("duration_sec", .int 0),
     ("rule_level", .int v.rule_level), ("severity_ord", .int 0),
     ("action", .str "na"), ("threat_family", .str v.threat_family),
     ("service_label", .str v.service_label),
     ("user", .str ""), ("host", v.host),
     ("platform_source", .str "linux"),
     ("auth_result", .int v.auth_result),
     ("logon_type", .str "na")]

/-- Values of the OpenStack canonical record. -/
structure OsFields where
  src_ip : PyVal
  bytes_sent : ℤ
  bytes_recv : ℤ
  duration_sec : ℤ
  rule_level : ℤ
  auth_result : ℤ
  threat_family : String
  user : PyVal
  host : PyVal

/-- The value computations of `features.py` `_map_openstack(alert)`. -/
def _map_openstack_vals (alert : PyVal) : Option OsFields :=
  obind (pyGet alert "data" (.dict [])) fun dv =>
  obind (asDict (pyOr dv (.dict []))) fun d =>
  let outcome := strLower (pyStr (pyOr (pyOr ((dget d "outcome").getD .none)
    ((dget d "status").getD .none)) (.str "")))
  let auth : ℤ := if outcome = "success" then 1 else if outcome = "failure" then 0 else -1
  obind (pyGet alert "rule" (.dict [])) fun r0 =>
  obind (pyGet (pyOr r0 (.dict [])) "level" .none) fun levelV =>
  some { src_ip := pyOr ((dget d "remote_address").getD .none) (.str "")
         bytes_sent := _to_int ((dget d "bytes_sent").getD .none) 0
         bytes_recv := _to_int ((dget d "bytes_received").getD .none) 0
         duration_sec := _to_int ((dget d "duration").getD .none) 0
         rule_level := _to_int levelV 0
         auth_result := auth
         threat_family := if auth ≠ -1 then "auth" else "na"
         user := pyOr ((dget d "username").getD .none) (.str "")
         host := pyOr ((dget d "service").getD .none) (.str "openstack") }

/-- `features.py` `_map_openstack(alert)`. -/
def _map_openstack (alert : PyVal) : Option (List (String × PyVal)) :=
  (_map_openstack_vals alert).map fun v =>
    [("src_ip", v.src_ip), ("dst_ip", .str ""),
     ("src_port", .int 0), ("dst_port", .int 0),
     ("proto", .str "tcp"),
     ("bytes_sent", .int v.bytes_sent), ("bytes_recv", .int v.bytes_recv),
     ("duration_sec", .int v.duration_sec),
     ("rule_level", .int v.rule_level), ("severity_ord", .int 0),
     ("action", .str "na"), ("threat_family", .str v.threat_family),
     ("service_label", .str "API"),
     ("user", v.user), ("host", v.host),
     ("platform_source", .str "openstack"),
     ("auth_result", .int v.auth_result),
     ("logon_type", .str "api")]

/-- The value computations of `features.py` `_map_generic(alert)`. -/
def _map_generic_vals (alert : PyVal) : Option NetFields :=
  obind (pyGet alert "data" (.dict [])) fun dv =>
  obind (asDict (pyOr dv (.dict []))) fun d =>
  obind (pyGet alert "rule" (.dict [])) fun rv =>
  obind (asDict (pyOr rv (.dict []))) fun r =>
  obind (pyLower (pyOr ((dget d "action").getD .none) (.str "na"))) fun actStr =>
  obind (pyLower (pyOr ((dget d "subtype").getD .none) (.str "na"))) fun subStr =>
  obind (_norm_service (_to_int ((dget d "dstport").getD .none) 0)
    ((dget d "service").getD (.str ""))) fun svc =>
  obind (pyGet alert "agent" (.dict [])) fun ag0 =>
  obind (pyGet (pyOr ag0 (.dict [])) "name" (.str "")) fun agname =>
  let sevV := (dget d "severity").getD .none
  let levelV := (dget r "level").getD .none
  some { src_ip := pyOr ((dget d "srcip").getD .none) (.str "")
         dst_ip := pyOr ((dget d "dstip").getD .none) (.str "")
         src_port := _to_int ((dget d "srcport").getD .none) 0
         dst_port := _to_int ((dget d "dstport").getD .none) 0
         proto := pyOr ((dget d "proto").getD .none) (.str "na")
         bytes_sent := _to_int ((dget d "sentbyte").getD .none) 0
         bytes_recv := _to_int ((dget d "rcvdbyte").getD .none) 0
         duration_sec := _to_int ((dget d "duration").getD .none) 0
         rule_level := _to_int levelV 0
         severity_ord := _severity_to_ord (match sevV with | .none => levelV | _ => sevV)
         action := actStr
         threat_family := subStr
         service_label := svc
         user := pyOr ((dget d "user").getD .none) (.str "")
         host := agname }

/-- `features.py` `_map_generic(alert)`. -/
def _map_generic (alert : PyVal) : Option (List (String × PyVal)) :=
  (_map_generic_vals alert).map fun v =>
    [("src_ip", v.src_ip), ("dst_ip", v.dst_ip),
     ("src_port", .int v.src_port), ("dst_port", .int v.dst_port),
     ("proto", v.proto),
     ("bytes_sent", .int v.bytes_sent), ("bytes_recv", .int v.bytes_recv),
     ("duration_sec", .int v.duration_sec),
     ("rule_level", .int v.rule_level), ("severity_ord", .int v.severity_ord),
     ("action", .str v.action), ("threat_family", .str v.threat_family),
     ("service_label", .str v.service_label),
     ("user", v.user), ("host", v.host),
     ("platform_source", .str "generic")]

/-- The tail of `_canonicalize`: platform flags, byte totals, sensitive-port
and admin-service flags, and the `hour` placeholder. -/
def canonTail (src : String) (base : List (String × PyVal)) : List (String × PyVal) :=
  let b1 := (_platform_flags src).foldl (fun b kv => dinsert b kv.1 kv.2) base
  let b2 := dinsert b1 "bytes_total"
    (.int (_to_int ((dget b1 "bytes_sent").getD .none) 0 +
           _to_int ((dget b1 "bytes_recv").getD .none) 0))
  let port := _to_int ((dget b2 "dst_port").getD .none) 0
  let b3 := dinsert b2 "dst_svc_sensitive" (.int (if port ∈ SENSITIVE_PORTS then 1 else 0))
  let isAdmin : Bool := match (dget b3 "service_label").getD .none with
    | .str s => decide (s ∈ ADMIN_SERVICES)
    | _ => false
  let b4 := dinsert b3 "dst_svc_admin" (.int (if isAdmin then 1 else 0))
  dinsert b4 "hour" (.int 0)

/-- `features.py` `_canonicalize(alert)`: detect the source, dispatch to the
per-source mapper, then apply the shared tail. -/
def _canonicalize (alert : PyVal) : Option (List (String × PyVal)) :=
  obind (_detect_source alert) fun src =>
  obind
    (if src = "fortigate" ∨ src = "cisco" ∨ src = "unifi" then _map_network_like alert
     else if src = "windows" then _map_windows alert
     else if src = "linux" then _map_linux alert
     else if src = "openstack" then _map_openstack alert
     else _map_generic alert) fun base =>
  some (canonTail src base)

/-- Model of the private-address test of `features.py` `_augment_canonical`
(IPv4 only; covers 0/8, 10/8, 127/8, 169.254/16, 172.16/12, 192.168/16 and
240/4 of Python's `ipaddress.ip_address(...).is_private`; the remaining
special ranges are omitted — no claim depends on them). -/
def isPrivateOctets (a b : ℕ) : Bool :=
  a == 10 || a == 127 || (a == 169 && b == 254) ||
  (a == 172 && decide (16 ≤ b) && decide (b ≤ 31)) ||
  (a == 192 && b == 168) || a == 0 || decide (240 ≤ a)

/-- Parse a dotted-quad IPv4 string (rejecting empty parts, non-digits,
leading zeros and octets above 255, as `ipaddress` does). -/
def parseIPv4 (s : String) : Option (List ℕ) :=
  let parts := strSplitOn s "."
  if parts.length == 4 && parts.all (fun p =>
      p ≠ "" && p.data.all Char.isDigit &&
      (p == "0" || p.data.head? != some '0') &&
      decide (digitsToNat p.data ≤ 255)) then
    some (parts.map (fun p => digitsToNat p.data))
  else Option.none

/-- The `_is_private` helper of `_augment_canonical` (0 on parse failure). -/
def _is_private (ip : String) : ℤ :=
  if ip = "" then 0
  else match parseIPv4 ip with
    | some (a :: b :: _) => if isPrivateOctets a b then 1 else 0
    | _ => 0

/-- The `_same24` helper of `_augment_canonical`. -/
def _same24 (a b : String) : ℤ :=
  let a4 := strSplitOn a "."
  let b4 := strSplitOn b "."
  if a4.length = 4 ∧ b4.length = 4 ∧ a4.take 3 = b4.take 3 then 1 else 0

/-- `features.py` `_augment_canonical(canon)`: derived buckets, one-hots and
direction heuristics.  `int(...)` on a malformed stored value raises, hence
the `Option`. -/
def _augment_canonical (canon : List (String × PyVal)) : Option (List (String × PyVal)) :=
  obind (pyToInt (pyOr ((dget canon "bytes_sent").getD (.int 0)) (.int 0))) fun bs =>
  obind (pyToInt (pyOr ((dget canon "bytes_recv").getD (.int 0)) (.int 0))) fun br =>
  let out1 := dinsert canon "bytes_total" (.int (bs + br))
  obind (pyToInt (pyOr ((dget out1 "dst_port").getD (.int 0)) (.int 0))) fun dst_port =>
  let out2 := dinsert out1 "port_bucket_low" (.int (if 0 < dst_port ∧ dst_port ≤ 1024 then 1 else 0))
  let out3 := dinsert out2 "port_bucket_mid" (.int (if 1025 ≤ dst_port ∧ dst_port ≤ 49151 then 1 else 0))
  let out4 := dinsert out3 "port_bucket_high" (.int (if 49152 ≤ dst_port then 1 else 0))
  let rawProto := strLower (strTrim (pyStr ((dget out4 "proto").getD (.str ""))))
  let token := if isPyDigit rawProto then
      (if digitsToNat rawProto.data = 6 then "tcp"
       else if digitsToNat rawProto.data = 17 then "udp"
       else if digitsToNat rawProto.data = 1 then "icmp"
       else "other")
    else rawProto
  let out5 := dinsert out4 "proto_tcp" (.int (if token = "tcp" then 1 else 0))
  let out6 := dinsert out5 "proto_udp" (.int (if token = "udp" then 1 else 0))
  let out7 := dinsert out6 "proto_icmp" (.int (if token = "icmp" then 1 else 0))
  let svc := strUpper (pyStr (pyOr ((dget out7 "service_label").getD (.str "")) (.str "")))
  let out8 := dinsert out7 "service_snmp" (.int (if svc = "SNMP" then 1 else 0))
  let out9 := dinsert out8 "service_ssh" (.int (if svc = "SSH" then 1 else 0))
  let out10 := dinsert out9 "service_rdp" (.int (if svc = "RDP" then 1 else 0))
  let out11 := dinsert out10 "service_winrm" (.int (if svc = "WINRM" then 1 else 0))
  let out12 := dinsert out11 "service_smtp" (.int (if svc = "SMTP" then 1 else 0))
  let out13 := dinsert out12 "service_http" (.int (if svc = "HTTP" then 1 else 0))
  let out14 := dinsert out13 "service_https" (.int (if svc = "HTTPS" then 1 else 0))
  obind (pyToInt (pyOr ((dget out14 "severity_ord").getD (.int 0)) (.int 0))) fun sevI =>
  let out15 := dinsert out14 "severity_ord" (.int sevI)
  let out16 := dinsert out15 "dst_svc_sensitive"
    (.int (if pyTruthy ((dget out15 "dst_svc_sensitive").getD .none) then 1 else 0))
  let out17 := dinsert out16 "dst_svc_admin"
    (.int (if pyTruthy ((dget out16 "dst_svc_admin").getD .none) then 1 else 0))
  let arV := (dget out17 "auth_result").getD (.int (-1))
  obind (pyToInt (match arV with | .none => .int (-1) | v => v)) fun ar =>
  let out18 := dinsert out17 "auth_result_pos" (.int (if ar = 1 then 1 else 0))
  let out19 := dinsert out18 "auth_result_neg" (.int (if ar = 0 then 1 else 0))
  let act := strLower (pyStr (pyOr ((dget out19 "action").getD (.str "")) (.str "")))
  let out20 := dinsert out19 "action_allowed"
    (.int (if act ∈ ["allow", "allowed", "accept", "permitted"] then 1 else 0))
  let out21 := dinsert out20 "action_blocked"
    (.int (if act ∈ ["block", "blocked", "deny", "denied"] then 1 else 0))
  let out22 := dinsert out21 "action_dropped"
    (.int (if act ∈ ["drop", "dropped"] then 1 else 0))
  let src_ip := pyStr (pyOr ((dget out22 "src_ip").getD .none) (.str ""))
  let dst_ip := pyStr (pyOr ((dget out22 "dst_ip").getD .none) (.str ""))
  let out23 := dinsert out22 "src_is_private" (.int (_is_private src_ip))
  let out24 := dinsert out23 "dst_is_private" (.int (_is_private dst_ip))
  let out25 := dinsert out24 "same_subnet_24" (.int (_same24 src_ip dst_ip))
  let allowish := act ∈ ["allow", "allowed", "accept"]
  let pfnw1 := pyEq ((dget out25 "pf_nw").getD .none) (.int 1)
  let srcPriv1 := pyEq ((dget out25 "src_is_private").getD .none) (.int 1)
  let dstPriv1 := pyEq ((dget out25 "dst_is_private").getD .none) (.int 1)
  let dstPriv0 := pyEq ((dget out25 "dst_is_private").getD .none) (.int 0)
  let out26 := dinsert out25 "dir_ingress"
    (.int (if allowish ∧ pfnw1 ∧ dstPriv1 then 1 else 0))
  let out27 := dinsert out26 "dir_egress"
    (.int (if allowish ∧ pfnw1 ∧ srcPriv1 ∧ dstPriv0 then 1 else 0))
  some (dinsert out27 "dir_internal" (.int (if srcPriv1 ∧ dstPriv1 then 1 else 0)))

/-- Per-triple value resolution of `_apply_feature_map`: direct key lookup
with the declared default, `float(...)` coercion, fallback to
`float(default)` — which itself raises when the default is not coercible. -/
def resolveFeature (canon : List (String × PyVal)) (item : FeatSpec) : Option ℚ :=
  match pyToFloat ((dget canon item.path).getD item.default) with
  | some q => some q
  | Option.none => pyToFloat item.default

/-- `features.py` `_apply_feature_map(canon, fmap)`. -/
def _apply_feature_map (canon : List (String × PyVal)) (fmap : PyVal) :
    Option (List (String × ℚ)) :=
  obind (_norm_features_spec fmap) fun flist =>
  flist.foldlM (fun out item => (resolveFeature canon item).map
    (fun q => dinsert out item.name q)) []

/-- The default compact feature vector of `extract_features`
(the branch taken when no feature map is configured). -/
def defaultFeatures (canon : List (String × PyVal)) : List (String × ℚ) :=
  [("rule_level", (_to_int ((dget canon "rule_level").getD .none) 0 : ℚ)),
   ("severity_ord", (_to_int ((dget canon "severity_ord").getD .none) 0 : ℚ)),
   ("bytes_sent", (_to_int ((dget canon "bytes_sent").getD .none) 0 : ℚ)),
   ("bytes_recv", (_to_int ((dget canon "bytes_recv").getD .none) 0 : ℚ)),
   ("bytes_total", (_to_int ((dget canon "bytes_total").getD .none) 0 : ℚ)),
   ("duration_sec", (_to_int ((dget canon "duration_sec").getD .none) 0 : ℚ)),
   ("dst_port", (_to_int ((dget canon "dst_port").getD .none) 0 : ℚ)),
   ("dst_svc_sensitive", if pyTruthy ((dget canon "dst_svc_sensitive").getD .none) then 1 else 0),
   ("dst_svc_admin", if pyTruthy ((dget canon "dst_svc_admin").getD .none) then 1 else 0),
   ("pf_win", (_to_int ((dget canon "pf_win").getD .none) 0 : ℚ)),
   ("pf_lin", (_to_int ((dget canon "pf_lin").getD .none) 0 : ℚ)),
   ("pf_nw", (_to_int ((dget canon "pf_nw").getD .none) 0 : ℚ)),
   ("pf_osks", (_to_int ((dget canon "pf_osks").getD .none) 0 : ℚ)),
   ("auth_result_pos", if pyEq ((dget canon "auth_result").getD (.int (-1))) (.int 1) then 1 else 0),
   ("auth_result_neg", if pyEq ((dget canon "auth_result").getD (.int (-1))) (.int 0) then 1 else 0),
   ("service_snmp", if pyEq ((dget canon "service_label").getD .none) (.str "SNMP") then 1 else 0),
   ("service_ssh", if pyEq ((dget canon "service_label").getD .none) (.str "SSH") then 1 else 0),
   ("service_rdp", if pyEq ((dget canon "service_label").getD .none) (.str "RDP") then 1 else 0),
   ("service_winrm", if pyEq ((dget canon "service_label").getD .none) (.str "WINRM") then 1 else 0),
   ("hour", (_to_int ((dget canon "hour").getD .none) 0 : ℚ))]

/-- The default feature-name order returned by `get_feature_names` when no
feature map is configured. -/
def defaultFeatureNames : List String :=
  ["rule_level", "severity_ord",
   "bytes_sent", "bytes_recv", "bytes_total", "duration_sec",
   "dst_port", "dst_svc_sensitive", "dst_svc_admin",
   "pf_win", "pf_lin", "pf_nw", "pf_osks",
   "auth_result_pos", "auth_result_neg",
   "service_snmp", "service_ssh", "service_rdp", "service_winrm",
   "hour"]

/-- `features.py` `extract_features(alert)`.  The feature-map document that
the source loads from `FEATURE_MAP_PATH` is passed as the `fmap` argument
(`.none` models a missing file; both this function and `get_feature_names`
read the same file, hence the same argument). -/
def extract_features (alert : PyVal) (fmap : PyVal) : Option (List (String × ℚ)) :=
  obind (_canonicalize alert) fun canon0 =>
  obind (_augment_canonical canon0) fun canon =>
  if pyTruthy fmap then _apply_feature_map canon fmap
  else some (defaultFeatures canon)

/-- `features.py` `get_feature_names()`, with the loaded feature-map
document passed as the argument (see `extract_features`). -/
def get_feature_names (fmap : PyVal) : Option (List String) :=
  if pyTruthy fmap then (_norm_features_spec fmap).map (fun l => l.map (·.name))
  else some defaultFeatureNames

/-! ### `src/policy.py`: bands, overrides, `apply_policy`

The policy document is YAML/JSON; its band, override and defaults sections
are modelled as typed records (the source reads them with `.get` defaults,
which the `Option` fields mirror).  Override `when` clauses keep their raw
`PyVal` values, since `match_overrides` dispatches on their runtime type. -/

/-- One band of a per-source band table (`{min, tag, action, recommend}`). -/
structure Band where
  min : ℚ := 0
  tag : Option String := Option.none
  action : Option String := Option.none
  recommend : Option String := Option.none

/-- One override rule of `policy.get("overrides", [])`. -/
structure POverride where
  when : List (String × PyVal) := []
  elevate_to : Option String := Option.none
  downgrade_to : Option String := Option.none

/-- A per-source policy entry of `policy.get("sources", {})`. -/
structure SrcPolicy where
  bands : List Band := []
  default_tag : Option String := Option.none
  decision_threshold : Option ℚ := Option.none

/-- The `defaults` section of the policy document. -/
structure PDefaults where
  decision_threshold : Option ℚ := Option.none
  default_tag : Option String := Option.none
  min_action : Option String := Option.none
  min_recommendation : Option String := Option.none
  shap_enabled : Option Bool := Option.none
  shap_min_score : Option ℚ := Option.none
  top_k_min : Option ℤ := Option.none
  top_k : Option ℤ := Option.none

/-- A loaded policy document. -/
structure PolicyCfg where
  defaults : PDefaults := {}
  sources : List (String × SrcPolicy) := []
  overrides : List POverride := []

/-- The decision dict returned by `apply_policy`. -/
structure PolicyDecision where
  threshold : ℚ
  tag : String
  action : String
  recommendation : String
  do_shap : Bool
  top_k : ℤ

/-- The op-stripping of `match_overrides`:
`v.replace(">=","").replace("<=","").replace(">","").replace("<","")`. -/
def stripCmpOps (s : String) : String :=
  strReplace (strReplace (strReplace (strReplace s ">=" "") "<=" "") ">" "") "<" ""

/-- One `(k, v)` clause of a `when` mapping in `match_overrides`: comparison
strings are parsed and compared numerically (any failure means no match),
anything else is Python equality.  Note the source tests `v.startswith(">")`
after `v.startswith(">=")` without an `elif`, so `">=t"` also runs the
strict test. -/
def matchClause (canon : List (String × PyVal)) (k : String) (v : PyVal) : Bool :=
  let cv := (dget canon k).getD .none
  match v with
  | .str s =>
      if strStarts s ">=" || strStarts s "<=" || strStarts s ">" || strStarts s "<" then
        match parseFloat (stripCmpOps s), pyToFloat (pyOr cv (.int 0)) with
        | some tgt, some cur =>
            (!(strStarts s ">=") || qle tgt cur) &&
            (!(strStarts s "<=") || qle cur tgt) &&
            (!(strStarts s ">") || qlt tgt cur) &&
            (!(strStarts s "<") || qlt cur tgt)
        | _, _ => false
      else pyEq cv v
  | _ => pyEq cv v

/-- `policy.py` `match_overrides(when, canon)`. -/
def match_overrides (whenD : List (String × PyVal)) (canon : List (String × PyVal)) : Bool :=
  whenD.all (fun kv => matchClause canon kv.1 kv.2)

/-- Insertion step of Python's stable descending sort
`sorted(bands, key=lambda b: float(b.get("min", 0)), reverse=True)`. -/
def insertBandDesc (b : Band) : List Band → List Band
  | [] => [b]
  | c :: cs => if b.min > c.min then b :: c :: cs else c :: insertBandDesc b cs

/-- Stable sort of a band table by descending minimum score. -/
def sortBandsDesc (bs : List Band) : List Band :=
  bs.foldl (fun acc b => insertBandDesc b acc) []

/-- The band scan of `apply_policy`: first band of the descending-sorted
table whose minimum is `≤ score` (the loop with `break`). -/
def selectBand (bands : List Band) (score : ℚ) : Option Band :=
  (sortBandsDesc bands).find? (fun b => qle b.min score)

/-- Tag/action/recommendation after the band scan (defaults if no band
matched, the matching band's fields otherwise). -/
def bandStage (bands : List Band) (score : ℚ) (tag0 act0 rec0 : String) :
    String × String × String :=
  match selectBand bands score with
  | some b => (b.tag.getD tag0, b.action.getD act0, b.recommend.getD rec0)
  | Option.none => (tag0, act0, rec0)

/-- One override application in `apply_policy`'s loop: on a match,
`elevate_to` then `downgrade_to` overwrite the tag when present. -/
def applyOverrideTag (canon : List (String × PyVal)) (tag : String) (ov : POverride) : String :=
  if match_overrides ov.when canon then ov.downgrade_to.getD (ov.elevate_to.getD tag)
  else tag

/-- `policy.py` `apply_policy(policy, score, source, canon)`. -/
def apply_policy (policy : PolicyCfg) (score : ℚ) (source : String)
    (canon : List (String × PyVal)) : PolicyDecision :=
  let pdefs := policy.defaults
  let srcpol := (dget policy.sources source).getD {}
  let threshold := srcpol.decision_threshold.getD (pdefs.decision_threshold.getD (1/2))
  let tag0 := srcpol.default_tag.getD (pdefs.default_tag.getD "LOW")
  let action0 := pdefs.min_action.getD "Queue"
  let rec0 := pdefs.min_recommendation.getD "Monitor traffic"
  let stage := bandStage srcpol.bands score tag0 action0 rec0
  let tag := policy.overrides.foldl (applyOverrideTag canon) stage.1
  let shap_enabled := pdefs.shap_enabled.getD true
  let shap_min_score := pdefs.shap_min_score.getD (1/5)
  { threshold := threshold
    tag := tag
    action := stage.2.1
    recommendation := stage.2.2
    do_shap := shap_enabled && qle shap_min_score score
    top_k := max (pdefs.top_k_min.getD 10) (pdefs.top_k.getD 12) }

/-! ### `src/model_api/policy.py`: predicate grammar and `Policy.decide`

The rules document is modelled as typed records (`MRule`), keeping the
`when` expression as the raw string the source parses.  The `health`
block of `decide` reads the filesystem (model mtime) and is outside the
embedding; the claims concern the criticality block, modelled in full. -/

/-- A parsed right-hand side of a `when` predicate: `float(...)` succeeded,
or the quote-stripped string. -/
inductive WhenRHS where
  | num (q : ℚ)
  | str (s : String)

/-- A parsed `when` predicate: membership or a binary comparison. -/
inductive WhenSpec where
  | inList (left : String) (vals : List WhenRHS)
  | cmp (op : String) (left : String) (rhs : WhenRHS)

/-- Python `s.split(sep, 1)` when `sep` occurs in `s`. -/
def splitOnce (s sep : String) : Option (String × String) :=
  (splitOnceChars sep.data s.data).map (fun p => (String.mk p.1, String.mk p.2))

/-- Python `s.strip("'\"")`: strip quote characters from both ends. -/
def stripQuotes (s : String) : String :=
  let l := s.data.dropWhile (fun c => c == '\'' || c == '"')
  String.mk (l.reverse.dropWhile (fun c => c == '\'' || c == '"')).reverse

/-- `try: float(v) except: v.strip("'\"")` — shared by both operand kinds. -/
def parseRHS (s : String) : WhenRHS :=
  match parseFloat s with
  | some q => .num q
  | Option.none => .str (stripQuotes s)

/-- The operator loop of `_parse_when`: first operator (in the listed
order) occurring anywhere in the expression splits it once. -/
def opLoop (expr : String) : Option WhenSpec :=
  match [">=", "<=", "==", ">", "<"].find? (fun op => strContains expr op) with
  | some op =>
      match splitOnce expr op with
      | some (l, r) => some (.cmp op (strTrim l) (parseRHS (strTrim r)))
      | Option.none => Option.none
  | Option.none => Option.none

/-- `model_api/policy.py` `_parse_when(expr)`: `" in [...]"` membership,
else the comparison-operator loop, else `None` (unparsable). -/
def _parse_when (expr0 : String) : Option WhenSpec :=
  let expr := strTrim expr0
  match splitOnce expr " in " with
  | some (l, r) =>
      let right := strTrim r
      if strStarts right "[" && strEnds right "]" then
        some (.inList (strTrim l)
          ((strSplitOn (String.mk right.data.tail.dropLast) ",").map
            (fun s => parseRHS (strTrim s))))
      else opLoop expr
  | Option.none => opLoop expr

/-- `model_api/policy.py` `_get(d, path, default)`: dotted-path traversal,
default on the first miss or non-dict. -/
def _get (d : PyVal) (path : String) (dflt : PyVal) : PyVal :=
  match (strSplitOn path ".").foldlM (fun cur p =>
      match cur with
      | PyVal.dict kvs => dget kvs p
      | _ => Option.none) d with
  | some v => v
  | Option.none => dflt

/-- Numeric comparison dispatch of the rule evaluator. -/
def cmpOpQ (op : String) (a b : ℚ) : Bool :=
  if op = ">=" then qle b a
  else if op = "<=" then qle a b
  else if op = ">" then qlt b a
  else qlt a b

/-- A parsed RHS as the Python value it denotes. -/
def rhsToPy : WhenRHS → PyVal
  | .num q => .float q
  | .str s => .str s

/-- `float(right)` on a parsed RHS (already numeric, or re-parsed). -/
def rhsFloat : WhenRHS → Option ℚ
  | .num q => some q
  | .str s => parseFloat s

/-- The rule-evaluation body of `decide` (lines computing `hit`):
an unparsable predicate or a failing `float(...)` coercion yields `False`. -/
def evalWhen (alert : PyVal) (expr : String) : Bool :=
  match _parse_when expr with
  | Option.none => false
  | some (.inList left vals) => vals.any (fun v => pyEq (_get alert left .none) (rhsToPy v))
  | some (.cmp op left rhs) =>
      if op = "==" then pyEq (_get alert left .none) (rhsToPy rhs)
      else
        match pyToFloat (_get alert left .none), rhsFloat rhs with
        | some a, some b => cmpOpQ op a b
        | _, _ => false

/-- `model_api/policy.py` `_fmt_reason(tpl, alert)`: interpolate
`#\x7b dotted.path \x7d` tokens against the alert. -/
def fmtReasonAux (alert : PyVal) : Nat → List Char → String
  | _, [] => ""
  | 0, cs => String.mk cs
  | fuel + 1, '#' :: '\x7b' :: rest =>
      if '\x7d' ∈ rest then
        pyStr (_get alert (String.mk (rest.takeWhile (· ≠ '\x7d'))) (.str "")) ++
          fmtReasonAux alert fuel ((rest.dropWhile (· ≠ '\x7d')).drop 1)
      else "#" ++ fmtReasonAux alert fuel ('\x7b' :: rest)
  | fuel + 1, c :: rest => String.singleton c ++ fmtReasonAux alert fuel rest

/-- `model_api/policy.py` `_fmt_reason(tpl, alert)` (fuel-structural; the
fuel always exceeds the character count, so the `0` case is unreachable). -/
def _fmt_reason (alert : PyVal) (cs : List Char) : String :=
  fmtReasonAux alert (2 * cs.length + 1) cs

/-- One rule of the model-api policy document (`self.rules` entries; the
`when` expression stays a raw string, the other fields are read with
truthiness guards in `decide`). -/
structure MRule where
  when : String := ""
  reason : Option String := Option.none
  add_reason : Option String := Option.none
  bump : Option ℚ := Option.none
  recommendations : List String := []
  escalate_to : Option String := Option.none

/-- The model-api policy configuration (`thresholds`, `rules`,
`triage_text`, `recommendations`). -/
structure MPolicy where
  th : List (String × ℚ) := []
  rules : List MRule := []
  triage_text : List (String × String) := []
  recs_by_tag : List (String × List String) := []

/-- `self.th.get(key, default)`. -/
def thGet (th : List (String × ℚ)) (k : String) (d : ℚ) : ℚ := (dget th k).getD d

/-- The initial threshold banding of `decide`. -/
def thresholdTag (th : List (String × ℚ)) (score : ℚ) : String :=
  if qle (thGet th "critical" (85/100)) score then "critical"
  else if qle (thGet th "high" (7/10)) score then "high"
  else if qle (thGet th "medium" (1/2)) score then "medium"
  else if qle (thGet th "low" (3/10)) score then "low"
  else "info"

/-- Accumulator of `decide`'s rule loop: bump, reasons, recommendations
and the (possibly escalated) tag. -/
structure RuleAcc where
  bump : ℚ
  reasons : List String
  recs : List String
  tag : String

/-- One iteration of `decide`'s rule loop. -/
def applyRule (alert : PyVal) (acc : RuleAcc) (r : MRule) : RuleAcc :=
  if evalWhen alert r.when then
    let rs1 := match r.reason with
      | some s => if s ≠ "" then acc.reasons ++ [_fmt_reason alert s.data] else acc.reasons
      | Option.none => acc.reasons
    let rs2 := match r.add_reason with
      | some s => if s ≠ "" then rs1 ++ [_fmt_reason alert s.data] else rs1
      | Option.none => rs1
    let b1 := match r.bump with
      | some b => if b == 0 then acc.bump else acc.bump + b
      | Option.none => acc.bump
    let rc1 := if r.recommendations ≠ [] then acc.recs ++ r.recommendations else acc.recs
    let t1 := match r.escalate_to with
      | some t => if t ≠ "" then t else acc.tag
      | Option.none => acc.tag
    ⟨b1, rs2, rc1, t1⟩
  else acc

/-- Clamp to `[0, 1]` (`max(0.0, min(1.0, score + bump))`). -/
def clamp01 (q : ℚ) : ℚ := qmax 0 (qmin 1 q)

/-- The post-override re-check of `decide`: promote to critical/high from
the boosted score, with the `tag not in ("critical",)` guard. -/
def recheckTag (th : List (String × ℚ)) (boosted : ℚ) (tag : String) : String :=
  if qle (thGet th "critical" (85/100)) boosted then "critical"
  else if qle (thGet th "high" (7/10)) boosted ∧ tag ≠ "critical" then "high"
  else tag

/-- `list(dict.fromkeys(...))`: dedupe keeping first occurrences
(structural, with the set of already-seen strings as accumulator). -/
def dedupFirstAux (seen : List String) : List String → List String
  | [] => []
  | x :: xs => if x ∈ seen then dedupFirstAux seen xs else x :: dedupFirstAux (x :: seen) xs

/-- `list(dict.fromkeys(...))`: dedupe keeping first occurrences. -/
def dedupFirst (l : List String) : List String := dedupFirstAux [] l

/-- Python's `f"{boosted:.2f}"`, abstracted to an injective rendering of the
rational (the two-decimal rounding only affects reason-string cosmetics;
no claim depends on the digits). -/
def fmt2 (q : ℚ) : String := toString q

/-- The synthesized default reason inserted at the head of the reason list. -/
def defaultReason (th : List (String × ℚ)) (boosted : ℚ) (tag : String) : String :=
  match dget th tag with
  | some t => "Score " ++ fmt2 boosted ++ " ≥ " ++ tag ++ " threshold " ++ toString t
  | Option.none => "Score " ++ fmt2 boosted

/-- The criticality block returned by `decide`. -/
structure Crit where
  tag : String
  score : ℚ
  reasons : List String
  triage_text : String
  recommendations : List String

/-- `model_api/policy.py` `Policy.decide`: threshold banding, the rule loop
(reasons/bump/recommendations/escalation), the boosted-score re-check, the
default reason, and deduplicated recommendations, each list capped at 6. -/
def MPolicy.decide (P : MPolicy) (score : ℚ) (alert : PyVal) : Crit :=
  let tag0 := thresholdTag P.th score
  let acc := P.rules.foldl (applyRule alert) ⟨0, [], [], tag0⟩
  let boosted := clamp01 (score + acc.bump)
  let tag := recheckTag P.th boosted acc.tag
  let reasons := defaultReason P.th boosted tag :: acc.reasons
  let recs := dedupFirst (acc.recs ++ ((dget P.recs_by_tag tag).getD []))
  ⟨tag, boosted, reasons.take 6, (dget P.triage_text tag).getD "", recs.take 6⟩

/-- Severity rank of a tag in the spec's ordering
`info ≤ low ≤ medium ≤ high ≤ critical` (tags outside the vocabulary rank
lowest); used to state the "never downgrades" claims. -/
def sevRank (tag : String) : ℕ :=
  if tag = "critical" then 4
  else if tag = "high" then 3
  else if tag = "medium" then 2
  else if tag = "low" then 1
  else 0

/-! ### `src/model.py`: the explanation ranker -/

/-- One ranked explanation entry (`{"feature", "value", "impact"}`). -/
structure TopFeat where
  feature : String
  value : ℚ
  impact : ℚ

/-- Insertion step of the argsort model. -/
def argsortInsert (phi : List ℚ) (i : ℕ) : List ℕ → List ℕ
  | [] => [i]
  | j :: js => if |phi.getD i 0| > |phi.getD j 0| then i :: j :: js
      else j :: argsortInsert phi i js

/-- `np.argsort(-np.abs(phi))`: indices in descending order of absolute
attribution.  numpy's tie order is unspecified (introsort); the model uses
a stable insertion sort — the claims are tie-order independent. -/
def argsortDesc (phi : List ℚ) : List ℕ :=
  (List.range phi.length).foldl (fun acc i => argsortInsert phi i acc) []

/-- The loop of `_append_nonzero_features` with its `kept` counter: skip
zero-valued features, stop once `kept >= k_limit`; out-of-range indexing
into `x`/`impacts`/`names` raises (`none`). -/
def appendNonzeroAux (names : List String) (x impacts : List ℚ) (kLimit kept : ℤ) :
    List ℕ → Option (List TopFeat)
  | [] => some []
  | idx :: rest =>
      obind x[idx]? fun val =>
      obind impacts[idx]? fun imp =>
      if val = 0 then appendNonzeroAux names x impacts kLimit kept rest
      else
        obind names[idx]? fun nm =>
        if kept + 1 ≥ kLimit then some [⟨nm, val, imp⟩]
        else
          obind (appendNonzeroAux names x impacts kLimit (kept + 1) rest) fun tl =>
          some (⟨nm, val, imp⟩ :: tl)

/-- `model.py` `Explainer._append_nonzero_features(order, names, x, impacts,
k_limit)`. -/
def _append_nonzero_features (order : List ℕ) (names : List String) (x impacts : List ℚ)
    (k_limit : ℤ) : Option (List TopFeat) :=
  appendNonzeroAux names x impacts k_limit 0 order

/-- The SHAP ranking step of `Explainer.explain` (its final attribution
branch): order indices by descending absolute attribution, keep only
indices valid for the current feature count, then append nonzero features
up to `k`. -/
def rankTop (names : List String) (x phi : List ℚ) (k : ℤ) : Option (List TopFeat) :=
  _append_nonzero_features
    ((argsortDesc phi).filter (fun i => decide (i < names.length))) names x phi k

/-- `model.py` `Explainer._clamp_top_k(k_req, n_feats)`; the `TOP_K` /
`TOP_K_MIN` environment defaults (both 10) are passed as arguments. -/
def _clamp_top_k (k_req : Option ℤ) (n_feats : ℕ) (topKDefault topKMinFloor : ℤ) : ℤ :=
  let base := max 1 (k_req.getD topKDefault)
  if n_feats ≥ 10 then min (max base topKMinFloor) (n_feats : ℤ) else (n_feats : ℤ)

/-! ## Specification-side definitions used by the statements -/

/-- Key effect of one dict assignment. -/
def insKey (l : List String) (k : String) : List String :=
  if k ∈ l then l else l ++ [k]

/-- The bands of the severity claim, on the numeric level itself. -/
def sevBand (q : ℚ) : ℤ :=
  if 12 ≤ q then 3 else if 9 ≤ q then 2 else if 6 ≤ q then 1 else 0

/-- Is the value a Python string? -/
def isStrV : PyVal → Bool
  | .str _ => true
  | _ => false

/-- Truthy values must be strings (falsy values are replaced by a string
default before any string method is called on them). -/
def strOrFalsy (v : PyVal) : Bool := !pyTruthy v || isStrV v

/-- Truthy values must be mappings (falsy values are replaced by `{}`
before `.get` is called on them). -/
def dictOrFalsy (v : PyVal) : Bool :=
  !pyTruthy v || (match v with | .dict _ => true | _ => false)

/-- A value used as `(x or {}).get("name", "").lower()`: either falsy, or a
mapping whose `name` entry (defaulting to `""`) is a string. -/
def goodNamed (v : PyVal) : Bool :=
  !pyTruthy v ||
  (match v with
   | .dict kvs => isStrV ((dget kvs "name").getD (.str ""))
   | _ => false)

/-- A `groups` value: after the `or []` guard it must be a list of
strings (each element is `.lower()`ed). -/
def goodGroupsV (g : PyVal) : Bool :=
  match pyOr g (.list []) with
  | .list es => es.all isStrV
  | _ => false

/-- A `rule` value: either falsy, or a mapping whose `groups` entry
(defaulting to `[]`) is well-shaped. -/
def goodRuleV (v : PyVal) : Bool :=
  !pyTruthy v ||
  (match v with
   | .dict kvs => goodGroupsV ((dget kvs "groups").getD (.list []))
   | _ => false)

/-- A `service` value: after the `or ""` guard it must be a string
(`.strip()` is called on it in `_norm_service`). -/
def goodServiceV (v : PyVal) : Bool :=
  match pyOr v (.str "") with
  | .str _ => true
  | _ => false

/-- A `data` value: either falsy, or a mapping whose `action`, `subtype`
and `service` entries survive the string methods applied to them. -/
def goodDataV (v : PyVal) : Bool :=
  !pyTruthy v ||
  (match v with
   | .dict kvs =>
       strOrFalsy ((dget kvs "action").getD .none) &&
       strOrFalsy ((dget kvs "subtype").getD .none) &&
       goodServiceV ((dget kvs "service").getD (.str ""))
   | _ => false)

/-- A `win` value: it must be a mapping (the source calls
`alert.get("win", {}).get("event")` with no `or {}` guard, so even a falsy
non-mapping such as `None` raises), and its `event` entry (defaulting to
`{}`) must be a mapping or falsy. -/
def goodWinV (v : PyVal) : Bool :=
  match v with
  | .dict wkvs => dictOrFalsy ((dget wkvs "event").getD (.dict []))
  | _ => false

/-- Structural well-shapedness of a raw alert: a mapping whose `decoder`,
`agent`, `rule`, `data`, `win` and `full_log` entries have the shapes the
canonicalization pipeline dereferences without a type guard. -/
def WellShaped (alert : PyVal) : Bool :=
  match alert with
  | .dict kvs =>
      goodNamed ((dget kvs "decoder").getD (.dict [])) &&
      goodNamed ((dget kvs "agent").getD (.dict [])) &&
      goodRuleV ((dget kvs "rule").getD (.dict [])) &&
      goodDataV ((dget kvs "data").getD (.dict [])) &&
      goodWinV ((dget kvs "win").getD (.dict [])) &&
      strOrFalsy ((dget kvs "full_log").getD .none)
  | _ => false

/-- The canonical-record keys written by every per-source mapper. -/
def baseKeys : List String :=
  ["src_ip", "dst_ip", "src_port", "dst_port", "proto",
   "bytes_sent", "bytes_recv", "duration_sec",
   "rule_level", "severity_ord", "action", "threat_family",
   "service_label", "user", "host", "platform_source"]

/-- The keys added by the shared tail of `_canonicalize`. -/
def tailKeys : List String :=
  ["pf_win", "pf_lin", "pf_nw", "pf_osks",
   "bytes_total", "dst_svc_sensitive", "dst_svc_admin", "hour"]

/-- The documented core schema: keys present in every canonical record. -/
def coreSchemaKeys : List String := baseKeys ++ tailKeys

/-! ## Basic lemmas about the embedding's data structures -/

@[simp] theorem obind_some_left {α β : Type} (a : α) (g : α → Option β) :
    obind (some a) g = g a := rfl

@[simp] theorem obind_none_left {α β : Type} (g : α → Option β) :
    obind Option.none g = Option.none := rfl

theorem obind_eq_some {α β : Type} {x : Option α} {g : α → Option β} {b : β} :
    obind x g = some b ↔ ∃ a, x = some a ∧ g a = some b := by
  cases x <;> simp [obind]

theorem obind_isSome_iff {α β : Type} {x : Option α} {g : α → Option β} :
    (obind x g).isSome ↔ ∃ a, x = some a ∧ (g a).isSome := by
  cases x <;> simp [obind]

theorem dget_dinsert {α : Type} (d : List (String × α)) (k k2 : String) (v : α) :
    dget (dinsert d k v) k2 = if k = k2 then some v else dget d k2 := by
  induction d with
  | nil => simp [dinsert, dget]
  | cons hd tl ih =>
      obtain ⟨k', v'⟩ := hd
      by_cases h1 : k' = k
      · subst h1
        by_cases h2 : k' = k2 <;> simp [dinsert, dget, h2]
      · by_cases h2 : k' = k2
        · subst h2
          have : ¬ k = k' := fun h => h1 h.symm
          simp [dinsert, dget, h1, this]
        · simp [dinsert, dget, h1, h2, ih]

theorem keys_dinsert {α : Type} (d : List (String × α)) (k : String) (v : α) :
    (dinsert d k v).map Prod.fst = insKey (d.map Prod.fst) k := by
  induction d with
  | nil => simp [dinsert, insKey]
  | cons hd tl ih =>
      obtain ⟨k', v'⟩ := hd
      by_cases h1 : k' = k
      · subst h1
        simp [dinsert, insKey]
      · have h2 : ¬ k = k' := fun h => h1 h.symm
        by_cases h3 : k ∈ tl.map Prod.fst
        · simp [dinsert, h1, ih, insKey, h2, h3]
        · simp [dinsert, h1, ih, insKey, h2, h3]

theorem dget_isSome_iff {α : Type} (d : List (String × α)) (k : String) :
    (dget d k).isSome ↔ k ∈ d.map Prod.fst := by
  induction d with
  | nil => simp [dget]
  | cons hd tl ih =>
      obtain ⟨k', v'⟩ := hd
      by_cases h : k' = k
      · subst h; simp [dget]
      · have h2 : ¬ k = k' := fun hh => h hh.symm
        simp [dget, h, h2, ih]

/-! ## C7: the severity-ordinal bands -/

theorem le_pyTruncQ_iff (c : ℤ) (hc : 0 < c) (q : ℚ) :
    c ≤ pyTruncQ q ↔ (c : ℚ) ≤ q := by
  unfold pyTruncQ
  split_ifs with h
  · constructor
    · intro hcl
      exfalso
      have h0 : (⌈q⌉ : ℤ) ≤ 0 := Int.ceil_le.mpr (by push_cast; exact h.le)
      omega
    · intro hq
      exfalso
      have hc0 : (0 : ℚ) < c := by exact_mod_cast hc
      linarith
  · exact Int.le_floor


theorem severity_int_band (m : ℤ) :
    (if m ≥ 12 then (3 : ℤ) else if m ≥ 9 then 2 else if m ≥ 6 then 1 else 0) =
      sevBand (m : ℚ) := by
  have h12 : (12 : ℚ) ≤ (m : ℚ) ↔ 12 ≤ m := by exact_mod_cast Iff.rfl
  have h9 : (9 : ℚ) ≤ (m : ℚ) ↔ 9 ≤ m := by exact_mod_cast Iff.rfl
  have h6 : (6 : ℚ) ≤ (m : ℚ) ↔ 6 ≤ m := by exact_mod_cast Iff.rfl
  simp only [sevBand, ge_iff_le]
  split_ifs <;> first | rfl | (exfalso; tauto)

theorem severity_float_band (q : ℚ) : _severity_to_ord (.float q) = sevBand q := by
  have h12 := le_pyTruncQ_iff 12 (by norm_num) q
  have h9 := le_pyTruncQ_iff 9 (by norm_num) q
  have h6 := le_pyTruncQ_iff 6 (by norm_num) q
  norm_num at h12 h9 h6
  simp only [_severity_to_ord, sevBand, ge_iff_le]
  split_ifs <;> first | rfl | (exfalso; tauto)

theorem sevBand_mono {q q' : ℚ} (h : q ≤ q') : sevBand q ≤ sevBand q' := by
  unfold sevBand
  split_ifs <;> first | omega | linarith

/-- A Python string value passed through `str(x or "")` is itself. -/
theorem pyStr_pyOr_str (s : String) : pyStr (pyOr (.str s) (.str "")) = s := by
  by_cases h : s = "" <;> simp [pyOr, pyTruthy, pyStr, h]

/-- C7: the severity-ordinal function bands every numeric input (int, float
or digit string) at 12/9/6 on the numeric level, is therefore non-decreasing
in the level; non-numeric strings map critical/high/medium to 3/2/1 and
anything else (including None) to 0; a digit string is treated numerically. -/
theorem c7_severity_ordinal :
    (∀ q : ℚ, _severity_to_ord (.float q) = sevBand q) ∧
    (∀ n : ℤ, _severity_to_ord (.int n) = sevBand (n : ℚ)) ∧
    (∀ s : String, isPyDigit s = true →
        _severity_to_ord (.str s) = sevBand ((digitsToNat s.data : ℤ) : ℚ)) ∧
    (∀ q q' : ℚ, q ≤ q' → _severity_to_ord (.float q) ≤ _severity_to_ord (.float q')) ∧
    (_severity_to_ord (.str "critical") = 3 ∧ _severity_to_ord (.str "high") = 2 ∧
      _severity_to_ord (.str "medium") = 1 ∧ _severity_to_ord .none = 0 ∧
      _severity_to_ord (.str "low") = 0) ∧
    (∀ s : String, isPyDigit s = false →
        _severity_to_ord (.str s) =
          (if strLower (strTrim s) = "critical" then 3
           else if strLower (strTrim s) = "high" then 2
           else if strLower (strTrim s) = "medium" then 1 else 0)) := by
  refine ⟨severity_float_band, ?_, ?_, ?_, ?_, ?_⟩
  · intro n
    simp only [_severity_to_ord]
    exact severity_int_band n
  · intro s hs
    simp only [_severity_to_ord, hs, eq_self_iff_true, if_true]
    exact severity_int_band (digitsToNat s.data : ℤ)
  · intro q q' h
    rw [severity_float_band, severity_float_band]
    exact sevBand_mono h
  · refine ⟨by decide, by decide, by decide, by decide, by decide⟩
  · intro s hs
    simp only [_severity_to_ord, hs, Bool.false_eq_true, if_false, pyStr_pyOr_str]

/-- Witness for C7 at concrete inputs. -/
theorem c7_witness :
    _severity_to_ord (.str "12") = sevBand ((digitsToNat "12".data : ℤ) : ℚ) ∧
    _severity_to_ord (.float (119/10)) ≤ _severity_to_ord (.float 12) ∧
    _severity_to_ord (.str "warning") = 0 := by
  refine ⟨c7_severity_ordinal.2.2.1 "12" (by decide),
          c7_severity_ordinal.2.2.2.1 (119/10) 12 (by norm_num), ?_⟩
  exact (c7_severity_ordinal.2.2.2.2.2 "warning" (by decide)).trans (by decide)


/-! ## C10: an empty `when` mapping matches unconditionally -/

/-- C10: `match_overrides({}, record)` is true for every canonical record,
so an override rule whose `when` is the empty mapping fires on every single
decision: placed last (or alone), its `downgrade_to` (or, absent that, its
`elevate_to`) value is the decision's tag regardless of the record, score
and source. -/
theorem c10_empty_when :
    (∀ canon : List (String × PyVal), match_overrides [] canon = true) ∧
    (∀ (cfg : PolicyCfg) (score : ℚ) (source : String) (canon : List (String × PyVal))
        (pre : List POverride) (eo : Option String) (t : String),
      cfg.overrides = pre ++ [{ when := [], elevate_to := eo, downgrade_to := some t }] →
      (apply_policy cfg score source canon).tag = t) ∧
    (∀ (cfg : PolicyCfg) (score : ℚ) (source : String) (canon : List (String × PyVal))
        (pre : List POverride) (t : String),
      cfg.overrides = pre ++ [{ when := [], elevate_to := some t, downgrade_to := Option.none }] →
      (apply_policy cfg score source canon).tag = t) := by
  refine ⟨fun canon => rfl, ?_, ?_⟩
  · intro cfg score source canon pre eo t hov
    simp only [apply_policy, hov, List.foldl_append, List.foldl_cons, List.foldl_nil,
      applyOverrideTag, match_overrides, List.all_nil, if_true, Option.getD_some]
  · intro cfg score source canon pre t hov
    simp only [apply_policy, hov, List.foldl_append, List.foldl_cons, List.foldl_nil,
      applyOverrideTag, match_overrides, List.all_nil, if_true, Option.getD_none,
      Option.getD_some]

/-- Witness for C10 at a concrete policy, score and record. -/
theorem c10_witness :
    (apply_policy
      { overrides := [{ when := [("a", .int 2)], elevate_to := some "HIGH" },
                      { when := [], elevate_to := Option.none, downgrade_to := some "LOW2" }] }
      (9/10) "network" [("x", .int 1)]).tag = "LOW2" :=
  c10_empty_when.2.1 _ (9/10) "network" [("x", .int 1)]
    [{ when := [("a", .int 2)], elevate_to := some "HIGH" }] Option.none "LOW2" rfl

/-! ## C5: the post-override re-check never lowers the tag -/

theorem sevRank_le_four (t : String) : sevRank t ≤ 4 := by
  unfold sevRank
  split_ifs <;> omega

theorem sevRank_le_three_of_ne (t : String) (h : t ≠ "critical") : sevRank t ≤ 3 := by
  unfold sevRank
  split_ifs with h1 <;> first | (exact absurd h1 h) | omega

/-- C5 (amended): the boosted-score re-check of `decide` never assigns a tag
of lower severity than the tag held before the re-check — both for the
re-check function itself and along the full `decide` pipeline relative to
the tag produced by the override loop.  (A lower final tag can still arise
from an explicit override that *sets* a lower tag, e.g. `escalate_to`; see
the counterexample.) -/
theorem c5_recheck_never_downgrades :
    (∀ (th : List (String × ℚ)) (boosted : ℚ) (tag : String),
      sevRank tag ≤ sevRank (recheckTag th boosted tag)) ∧
    (∀ (P : MPolicy) (score : ℚ) (alert : PyVal),
      sevRank (P.rules.foldl (applyRule alert) ⟨0, [], [], thresholdTag P.th score⟩).tag ≤
        sevRank ((P.decide score alert).tag)) := by
  have main : ∀ (th : List (String × ℚ)) (boosted : ℚ) (tag : String),
      sevRank tag ≤ sevRank (recheckTag th boosted tag) := by
    intro th boosted tag
    unfold recheckTag
    split_ifs with h1 h2
    · calc sevRank tag ≤ 4 := sevRank_le_four tag
        _ = sevRank "critical" := by decide
    · calc sevRank tag ≤ 3 := sevRank_le_three_of_ne tag h2.2
        _ = sevRank "high" := by decide
    · exact le_refl _
  refine ⟨main, ?_⟩
  intro P score alert
  simp only [MPolicy.decide]
  exact main P.th _ _

/-- C5 counterexample: with score 0.55 (threshold tag "medium") and a rule
whose `escalate_to` is "low", `decide` returns the lower tag "low" — yet the
model-api rule format has no `downgrade_to` at all, so the lower tag did not
come from an explicit `downgrade_to` override, contradicting the claim that
a lower tag can result only from one. -/
theorem c5_counterexample :
    (MPolicy.decide
      { th := [("critical", 85/100), ("high", 7/10), ("medium", 1/2), ("low", 3/10)],
        rules := [{ when := "a == 1", escalate_to := some "low" }] }
      (55/100) (.dict [("a", .int 1)])).tag = "low" ∧
    (MPolicy.decide
      { th := [("critical", 85/100), ("high", 7/10), ("medium", 1/2), ("low", 3/10)] }
      (55/100) (.dict [("a", .int 1)])).tag = "medium" ∧
    sevRank "low" < sevRank "medium" := by
  refine ⟨by with_unfolding_all rfl, by with_unfolding_all rfl, by decide⟩

/-- Witness for C5 at a concrete threshold table, score and tag. -/
theorem c5_witness :
    sevRank "high" ≤ sevRank (recheckTag [("critical", 85/100)] (9/10) "high") :=
  c5_recheck_never_downgrades.1 [("critical", 85/100)] (9/10) "high"

/-! ## C4: band selection scans in descending order of minimum -/

theorem mem_insertBandDesc {a b : Band} {l : List Band} :
    a ∈ insertBandDesc b l ↔ a = b ∨ a ∈ l := by
  induction l with
  | nil => simp [insertBandDesc]
  | cons c cs ih =>
      unfold insertBandDesc
      split_ifs with h
      · simp [List.mem_cons]
      · simp only [List.mem_cons, ih]
        tauto

theorem mem_sortBandsDesc {a : Band} {l : List Band} :
    a ∈ sortBandsDesc l ↔ a ∈ l := by
  have general : ∀ (m acc : List Band),
      a ∈ m.foldl (fun acc b => insertBandDesc b acc) acc ↔ a ∈ acc ∨ a ∈ m := by
    intro m
    induction m with
    | nil => intro acc; simp
    | cons b bs ih =>
        intro acc
        rw [List.foldl_cons, ih, mem_insertBandDesc]
        simp only [List.mem_cons]
        tauto
  unfold sortBandsDesc
  rw [general]
  simp

theorem pairwise_insertBandDesc {b : Band} {l : List Band}
    (h : l.Pairwise (fun x y : Band => y.min ≤ x.min)) :
    (insertBandDesc b l).Pairwise (fun x y : Band => y.min ≤ x.min) := by
  induction l with
  | nil => simp [insertBandDesc]
  | cons c cs ih =>
      rcases List.pairwise_cons.mp h with ⟨hc, hcs⟩
      unfold insertBandDesc
      split_ifs with hlt
      · refine List.pairwise_cons.mpr ⟨?_, h⟩
        intro y hy
        rcases List.mem_cons.mp hy with rfl | hy2
        · exact le_of_lt hlt
        · exact (hc y hy2).trans (le_of_lt hlt)
      · refine List.pairwise_cons.mpr ⟨?_, ih hcs⟩
        intro y hy
        rcases mem_insertBandDesc.mp hy with rfl | hy2
        · exact not_lt.mp hlt
        · exact hc y hy2

theorem pairwise_sortBandsDesc (l : List Band) :
    (sortBandsDesc l).Pairwise (fun x y : Band => y.min ≤ x.min) := by
  have general : ∀ (m acc : List Band),
      acc.Pairwise (fun x y : Band => y.min ≤ x.min) →
      (m.foldl (fun acc b => insertBandDesc b acc) acc).Pairwise
        (fun x y : Band => y.min ≤ x.min) := by
    intro m
    induction m with
    | nil => intro acc h; exact h
    | cons b bs ih => intro acc h; exact ih _ (pairwise_insertBandDesc h)
  exact general l [] List.Pairwise.nil

/-- On a descending-sorted band list, `find?` with the qualification test
returns a band of maximal minimum among the qualifying ones. -/
theorem find?_qle_max (score : ℚ) :
    ∀ (l : List Band), l.Pairwise (fun x y : Band => y.min ≤ x.min) →
    ∀ c, l.find? (fun b => qle b.min score) = some c →
    ∀ b ∈ l, b.min ≤ score → b.min ≤ c.min := by
  intro l
  induction l with
  | nil => intro _ c hc; simp at hc
  | cons x xs ih =>
      intro hp c hc b hb hble
      rcases List.pairwise_cons.mp hp with ⟨hx, hxs⟩
      rw [List.find?_cons] at hc
      split at hc
      · cases hc
        rcases List.mem_cons.mp hb with rfl | hb2
        · exact le_refl _
        · exact hx b hb2
      · rename_i hq
        rcases List.mem_cons.mp hb with rfl | hb2
        · have hlt : score < b.min := qle_false_iff.mp (by simpa using hq)
          exact absurd hble (not_le.mpr hlt)
        · exact ih hxs c hc b hb2 hble

theorem selectBand_some (bands : List Band) (score : ℚ) (c : Band)
    (h : selectBand bands score = some c) :
    c.min ≤ score ∧ c ∈ bands ∧ ∀ b ∈ bands, b.min ≤ score → b.min ≤ c.min := by
  have h' : (sortBandsDesc bands).find? (fun b => qle b.min score) = some c := h
  have hpc := List.find?_some h'
  refine ⟨qle_iff.mp hpc, mem_sortBandsDesc.mp (List.mem_of_find?_eq_some h'), ?_⟩
  intro b hb hble
  exact find?_qle_max score _ (pairwise_sortBandsDesc bands) c h b
    (mem_sortBandsDesc.mpr hb) hble

theorem selectBand_none (bands : List Band) (score : ℚ)
    (h : selectBand bands score = Option.none) : ∀ b ∈ bands, score < b.min := by
  intro b hb
  have h2 := List.find?_eq_none.mp h b (mem_sortBandsDesc.mpr hb)
  exact qle_false_iff.mp (by simpa using h2)

/-- C4: the band scan considers bands in descending order of their minimum:
a selected band qualifies (its minimum is `≤ score`, equality included), no
qualifying band has a larger minimum (so a lower band never masks a
qualifying higher one), and it supplies tag, action and recommendation;
when no band qualifies every band minimum exceeds the score and the
defaults survive; and whenever some band qualifies, a band at least as
high is selected. -/
theorem c4_band_selection (bands : List Band) (score : ℚ) (tag0 act0 rec0 : String) :
    (∀ c, selectBand bands score = some c →
        c.min ≤ score ∧ c ∈ bands ∧ (∀ b ∈ bands, b.min ≤ score → b.min ≤ c.min) ∧
        bandStage bands score tag0 act0 rec0 =
          (c.tag.getD tag0, c.action.getD act0, c.recommend.getD rec0)) ∧
    (selectBand bands score = Option.none →
        (∀ b ∈ bands, score < b.min) ∧
        bandStage bands score tag0 act0 rec0 = (tag0, act0, rec0)) ∧
    (∀ b ∈ bands, b.min ≤ score →
        ∃ c, selectBand bands score = some c ∧ b.min ≤ c.min ∧ c.min ≤ score) := by
  refine ⟨?_, ?_, ?_⟩
  · intro c hc
    obtain ⟨h1, h2, h3⟩ := selectBand_some bands score c hc
    refine ⟨h1, h2, h3, ?_⟩
    unfold bandStage
    rw [hc]
  · intro h
    refine ⟨selectBand_none bands score h, ?_⟩
    unfold bandStage
    rw [h]
  · intro b hb hble
    cases hsel : selectBand bands score with
    | none => exact absurd hble (not_le.mpr (selectBand_none bands score hsel b hb))
    | some c =>
        obtain ⟨h1, _, h3⟩ := selectBand_some bands score c hsel
        exact ⟨c, rfl, h3 b hb hble, h1⟩

/-- Witness for C4 at a concrete one-band table and score. -/
theorem c4_witness :
    (1/2 : ℚ) ≤ 7/10 ∧
    bandStage [⟨1/2, some "HIGH", Option.none, Option.none⟩] (7/10) "LOW" "Queue" "Mon" =
      ("HIGH", "Queue", "Mon") := by
  have h := (c4_band_selection [⟨1/2, some "HIGH", Option.none, Option.none⟩]
      (7/10) "LOW" "Queue" "Mon").1
    ⟨1/2, some "HIGH", Option.none, Option.none⟩ (by with_unfolding_all rfl)
  exact ⟨h.1, h.2.2.2.trans rfl⟩

/-! ## C6: the explanation ranking -/

theorem mem_argsortInsert {i j : ℕ} {phi : List ℚ} {l : List ℕ} :
    i ∈ argsortInsert phi j l ↔ i = j ∨ i ∈ l := by
  induction l with
  | nil => simp [argsortInsert]
  | cons a as ih =>
      unfold argsortInsert
      split_ifs with h
      · simp [List.mem_cons]
      · simp only [List.mem_cons, ih]
        tauto

theorem mem_argsortDesc {i : ℕ} {phi : List ℚ} (h : i ∈ argsortDesc phi) :
    i < phi.length := by
  have general : ∀ (m acc : List ℕ),
      i ∈ m.foldl (fun acc j => argsortInsert phi j acc) acc → i ∈ acc ∨ i ∈ m := by
    intro m
    induction m with
    | nil => intro acc h2; exact Or.inl h2
    | cons j js ih =>
        intro acc h2
        rcases ih _ h2 with h3 | h3
        · rcases mem_argsortInsert.mp h3 with rfl | h4
          · exact Or.inr (List.mem_cons_self _ _)
          · exact Or.inl h4
        · exact Or.inr (List.mem_cons_of_mem _ h3)
  unfold argsortDesc at h
  rcases general _ _ h with h2 | h2
  · simp at h2
  · exact List.mem_range.mp h2

/-- Soundness of the `_append_nonzero_features` loop: with every index in
bounds and room left (`kept < k_limit`), it succeeds, keeps no zero-valued
entry, and appends at most `k_limit - kept` entries. -/
theorem appendNonzeroAux_sound :
    ∀ (order : List ℕ) (names : List String) (x phi : List ℚ) (kLimit kept : ℤ),
      (∀ i ∈ order, i < x.length ∧ i < phi.length ∧ i < names.length) →
      kept < kLimit →
      ∃ l, appendNonzeroAux names x phi kLimit kept order = some l ∧
        (∀ e ∈ l, e.value ≠ 0) ∧ (l.length : ℤ) + kept ≤ kLimit := by
  intro order
  induction order with
  | nil =>
      intro names x phi kLimit kept hb hk
      exact ⟨[], rfl, by simp, by simpa using hk.le⟩
  | cons idx rest ih =>
      intro names x phi kLimit kept hb hk
      obtain ⟨hx, hphi, hnames⟩ := hb idx (List.mem_cons_self _ _)
      have hrest : ∀ i ∈ rest, i < x.length ∧ i < phi.length ∧ i < names.length :=
        fun i hi => hb i (List.mem_cons_of_mem _ hi)
      simp only [appendNonzeroAux]
      rw [List.getElem?_eq_getElem hx, obind_some_left,
          List.getElem?_eq_getElem hphi, obind_some_left]
      by_cases hz : x[idx] = 0
      · rw [if_pos hz]
        exact ih names x phi kLimit kept hrest hk
      · rw [if_neg hz, List.getElem?_eq_getElem hnames, obind_some_left]
        by_cases hfull : kept + 1 ≥ kLimit
        · rw [if_pos hfull]
          refine ⟨[⟨names[idx], x[idx], phi[idx]⟩], rfl, ?_, ?_⟩
          · intro e he
            rcases List.mem_singleton.mp he with rfl
            exact hz
          · simp only [List.length_cons, List.length_nil]
            push_cast
            omega
        · rw [if_neg hfull]
          have hk2 : kept + 1 < kLimit := by omega
          obtain ⟨l, hl, hvals, hlen⟩ := ih names x phi kLimit (kept + 1) hrest hk2
          rw [hl, obind_some_left]
          refine ⟨⟨names[idx], x[idx], phi[idx]⟩ :: l, rfl, ?_, ?_⟩
          · intro e he
            rcases List.mem_cons.mp he with rfl | h2
            · exact hz
            · exact hvals e h2
          · simp only [List.length_cons]
            push_cast
            omega

/-- C6 (amended): with the feature vector aligned with the name list (as
`_feature_array` builds them) and a limit of at least 1, the SHAP ranking
step raises no exception — every dereferenced index is below the feature
vector's length even when the attribution array has a different length —
and the result has no zero-valued entry and length at most the limit;
moreover `_clamp_top_k` returns at least 1 whenever a feature exists, so
`explain` never passes a smaller limit.  The claim's unrestricted length
bound is false at limit 0 (see the counterexample): the loop tests
`kept >= k_limit` only after appending. -/
theorem c6_ranking (names : List String) (x phi : List ℚ) (k : ℤ)
    (hlen : x.length = names.length) (hk : 1 ≤ k) :
    (∃ l, rankTop names x phi k = some l ∧
      (∀ e ∈ l, e.value ≠ 0) ∧ (l.length : ℤ) ≤ k) ∧
    (∀ (kreq : Option ℤ) (n : ℕ) (dflt floor : ℤ), 1 ≤ n → 1 ≤ floor →
      1 ≤ _clamp_top_k kreq n dflt floor) := by
  constructor
  · have hb : ∀ i ∈ (argsortDesc phi).filter (fun i => decide (i < names.length)),
        i < x.length ∧ i < phi.length ∧ i < names.length := by
      intro i hi
      have h1 := List.mem_filter.mp hi
      have h2 : i < names.length := by simpa using h1.2
      exact ⟨hlen ▸ h2, mem_argsortDesc h1.1, h2⟩
    obtain ⟨l, hl, hvals, hlen2⟩ :=
      appendNonzeroAux_sound _ names x phi k 0 hb (by omega)
    exact ⟨l, hl, hvals, by simpa using hlen2⟩
  · intro kreq n dflt floor hn hfloor
    simp only [_clamp_top_k]
    split_ifs with h10 <;> omega

/-- C6 counterexample: with one feature of value 5 and limit 0, the ranking
returns one entry — length 1 exceeds the limit 0, because the loop checks
`kept >= k_limit` only after appending (an attribution array of a different
length is also used here, and still no out-of-range index is touched). -/
theorem c6_counterexample :
    ∃ l, rankTop ["a"] [5] [2, 3, 4] 0 = some l ∧ ¬ ((l.length : ℤ) ≤ 0) := by
  refine ⟨[⟨"a", 5, 2⟩], by with_unfolding_all rfl, by decide⟩

/-- Witness for C6 at a concrete name list, vectors and limit. -/
theorem c6_witness :
    (∃ l, rankTop ["a"] [5] [7] 1 = some l ∧
      (∀ e ∈ l, e.value ≠ 0) ∧ (l.length : ℤ) ≤ 1) ∧
    1 ≤ _clamp_top_k Option.none 5 10 10 := by
  have h := c6_ranking ["a"] [5] [7] 1 (by decide) (by decide)
  exact ⟨h.1, h.2 Option.none 5 10 10 (by decide) (by decide)⟩

/-! ## C8: malformed override predicates never match and never fail -/

/-- C8: a `when` predicate that no supported operator parses evaluates to
`False`; a comparison whose operand cannot be coerced to float evaluates to
`False`; a non-matching rule leaves the accumulator untouched, so dropping
it from the rule list does not change `decide`'s output at all (no tag
change, bump, reason or recommendation); likewise a `match_overrides`
clause whose comparison target or current value fails float coercion makes
the override non-matching, and dropping such an override does not change
`apply_policy`'s decision.  Both `decide` and `apply_policy` are total
functions of the embedding, so a well-formed decision is always returned. -/
theorem c8_malformed_nonmatching :
    (∀ (alert : PyVal) (expr : String), _parse_when expr = Option.none →
        evalWhen alert expr = false) ∧
    (∀ (alert : PyVal) (expr op left : String) (rhs : WhenRHS),
        _parse_when expr = some (.cmp op left rhs) → op ≠ "==" →
        pyToFloat (_get alert left .none) = Option.none ∨ rhsFloat rhs = Option.none →
        evalWhen alert expr = false) ∧
    (∀ (alert : PyVal) (acc : RuleAcc) (r : MRule),
        evalWhen alert r.when = false → applyRule alert acc r = acc) ∧
    (∀ (th : List (String × ℚ)) (tt : List (String × String))
        (rbt : List (String × List String)) (pre post : List MRule) (r : MRule)
        (score : ℚ) (alert : PyVal), evalWhen alert r.when = false →
        MPolicy.decide ⟨th, pre ++ r :: post, tt, rbt⟩ score alert =
          MPolicy.decide ⟨th, pre ++ post, tt, rbt⟩ score alert) ∧
    (∀ (canon whenD : List (String × PyVal)) (k s : String),
        (k, PyVal.str s) ∈ whenD →
        (strStarts s ">=" || strStarts s "<=" || strStarts s ">" || strStarts s "<") = true →
        parseFloat (stripCmpOps s) = Option.none ∨
          pyToFloat (pyOr ((dget canon k).getD .none) (.int 0)) = Option.none →
        match_overrides whenD canon = false) ∧
    (∀ (dfl : PDefaults) (srcs : List (String × SrcPolicy)) (pre post : List POverride)
        (ov : POverride) (score : ℚ) (source : String) (canon : List (String × PyVal)),
        match_overrides ov.when canon = false →
        apply_policy ⟨dfl, srcs, pre ++ ov :: post⟩ score source canon =
          apply_policy ⟨dfl, srcs, pre ++ post⟩ score source canon) := by
  refine ⟨?_, ?_, ?_, ?_, ?_, ?_⟩
  · intro alert expr h
    simp only [evalWhen, h]
  · intro alert expr op left rhs hp hop hco
    simp only [evalWhen, hp]
    rw [if_neg hop]
    rcases hco with h1 | h1
    · rw [h1]
    · rw [h1]
      cases pyToFloat (_get alert left .none) <;> rfl
  · intro alert acc r h
    simp [applyRule, h]
  · intro th tt rbt pre post r score alert h
    have hskip : ∀ acc, applyRule alert acc r = acc := fun acc => by simp [applyRule, h]
    simp only [MPolicy.decide, List.foldl_append, List.foldl_cons, hskip]
  · intro canon whenD k s hmem hstarts hfail
    have hcl : matchClause canon k (.str s) = false := by
      simp only [matchClause]
      rw [if_pos hstarts]
      rcases hfail with h1 | h1
      · rw [h1]
      · rw [h1]
        cases parseFloat (stripCmpOps s) <;> rfl
    refine List.all_eq_false.mpr ⟨(k, .str s), hmem, ?_⟩
    simp [hcl]
  · intro dfl srcs pre post ov score source canon h
    have hskip : ∀ t, applyOverrideTag canon t ov = t := fun t => by
      simp [applyOverrideTag, h]
    simp only [apply_policy, List.foldl_append, List.foldl_cons, hskip]

/-- Witness for C8 at concrete malformed predicates, rules and overrides. -/
theorem c8_witness :
    evalWhen (.dict []) "no operator here" = false ∧
    evalWhen (.dict []) "sev > high" = false ∧
    applyRule (.dict []) ⟨0, [], [], "info"⟩ { when := "no operator here" } =
      ⟨0, [], [], "info"⟩ ∧
    MPolicy.decide ⟨[], [{ when := "sev > high" }], [], []⟩ (1/2) (.dict []) =
      MPolicy.decide ⟨[], [], [], []⟩ (1/2) (.dict []) ∧
    match_overrides [("f", .str ">=abc")] [] = false ∧
    apply_policy ⟨{}, [], [{ when := [("f", .str ">=abc")] }]⟩ (1/2) "network" [] =
      apply_policy ⟨{}, [], []⟩ (1/2) "network" [] := by
  have h := c8_malformed_nonmatching
  refine ⟨h.1 (.dict []) "no operator here" rfl,
    h.2.1 (.dict []) "sev > high" ">" "sev" (.str "high") rfl (by decide) (Or.inl rfl),
    h.2.2.1 (.dict []) ⟨0, [], [], "info"⟩ { when := "no operator here" }
      (h.1 (.dict []) "no operator here" rfl),
    h.2.2.2.1 [] [] [] [] [] { when := "sev > high" } (1/2) (.dict [])
      (h.2.1 (.dict []) "sev > high" ">" "sev" (.str "high") rfl (by decide) (Or.inl rfl)),
    h.2.2.2.2.1 [] [("f", .str ">=abc")] "f" ">=abc" (List.mem_singleton.mpr rfl)
      rfl (Or.inl rfl),
    h.2.2.2.2.2 {} [] [] [] { when := [("f", .str ">=abc")] } (1/2) "network" []
      (h.2.2.2.2.1 [] [("f", .str ">=abc")] "f" ">=abc" (List.mem_singleton.mpr rfl)
        rfl (Or.inl rfl))⟩

/-! ## C9: feature-map value resolution -/

theorem resolveFeature_isSome (canon : List (String × PyVal)) (item : FeatSpec)
    (h : (pyToFloat item.default).isSome = true) :
    (resolveFeature canon item).isSome = true := by
  unfold resolveFeature
  cases hd : pyToFloat ((dget canon item.path).getD item.default)
  · simpa using h
  · rfl

theorem applyMap_foldlM_isSome (canon : List (String × PyVal)) :
    ∀ (l : List FeatSpec) (out : List (String × ℚ)),
      (∀ it ∈ l, (pyToFloat it.default).isSome = true) →
      (l.foldlM (fun out item => (resolveFeature canon item).map
        (fun q => dinsert out item.name q)) out).isSome = true := by
  intro l
  induction l with
  | nil => intro out _; rfl
  | cons it rest ih =>
      intro out hl
      obtain ⟨q, hq⟩ := Option.isSome_iff_exists.mp
        (resolveFeature_isSome canon it (hl it (List.mem_cons_self _ _)))
      rw [List.foldlM_cons, hq]
      exact ih _ (fun it2 h2 => hl it2 (List.mem_cons_of_mem _ h2))

/-- C9 (amended): resolution reads the triple's path as a direct key of the
flat canonical record; an absent key yields the declared default (coerced
to float); a present but non-coercible value also falls back to the
declared default; with a float-coercible default no exception arises,
pointwise and for the whole map application; and during normalization a
missing per-feature `default` sub-field becomes 0 in all three dict-shaped
entry forms.  The claim's "no exception escapes" is false for a
non-coercible declared default: `float(default)` in the `except` arm
raises, see the counterexample. -/
theorem c9_feature_resolution :
    (∀ (canon : List (String × PyVal)) (item : FeatSpec),
        dget canon item.path = Option.none →
        resolveFeature canon item = pyToFloat item.default) ∧
    (∀ (canon : List (String × PyVal)) (item : FeatSpec) (v : PyVal) (q : ℚ),
        dget canon item.path = some v → pyToFloat v = some q →
        resolveFeature canon item = some q) ∧
    (∀ (canon : List (String × PyVal)) (item : FeatSpec) (v : PyVal),
        dget canon item.path = some v → pyToFloat v = Option.none →
        resolveFeature canon item = pyToFloat item.default) ∧
    (∀ (canon : List (String × PyVal)) (item : FeatSpec),
        (pyToFloat item.default).isSome = true →
        (resolveFeature canon item).isSome = true) ∧
    (∀ (canon : List (String × PyVal)) (fmap : PyVal) (flist : List FeatSpec),
        _norm_features_spec fmap = some flist →
        (∀ it ∈ flist, (pyToFloat it.default).isSome = true) →
        (_apply_feature_map canon fmap).isSome = true) ∧
    (∀ (kvs : List (String × PyVal)), dget kvs "default" = Option.none →
        (∀ fs, normListItem (.dict kvs) = some fs → fs.default = .int 0) ∧
        (∀ nm fs, normFlatItem nm (.dict kvs) = some fs → fs.default = .int 0) ∧
        (∀ nm, (normNestedItem nm (.dict kvs)).default = .int 0)) := by
  refine ⟨?_, ?_, ?_, ?_, ?_, ?_⟩
  · intro canon item h
    simp only [resolveFeature, h, Option.getD_none]
    cases pyToFloat item.default <;> rfl
  · intro canon item v q h hv
    simp only [resolveFeature, h, Option.getD_some, hv]
  · intro canon item v h hv
    simp only [resolveFeature, h, Option.getD_some, hv]
  · exact resolveFeature_isSome
  · intro canon fmap flist hnorm hdef
    simp only [_apply_feature_map, hnorm, obind_some_left]
    exact applyMap_foldlM_isSome canon flist [] hdef
  · intro kvs h
    refine ⟨?_, ?_, ?_⟩
    · intro fs hfs
      simp only [normListItem, h, Option.getD_none] at hfs
      split at hfs
      · simp at hfs
      · cases hfs
        rfl
    · intro nm fs hfs
      simp only [normFlatItem, h, Option.getD_none] at hfs
      cases hfs
      rfl
    · intro nm
      simp [normNestedItem, h]

/-- C9 counterexample: a feature map that normalizes successfully but whose
declared default is the non-coercible string "zzz"; on an empty canonical
record the resolution of the map raises (`float("zzz")` in the `except`
arm), so an exception escapes `_apply_feature_map`. -/
theorem c9_counterexample :
    _norm_features_spec (.dict [("features",
        .list [.dict [("name", .str "f"), ("default", .str "zzz")]])]) =
      some [⟨"f", "f", .str "zzz"⟩] ∧
    _apply_feature_map [] (.dict [("features",
        .list [.dict [("name", .str "f"), ("default", .str "zzz")]])]) = Option.none :=
  ⟨rfl, rfl⟩

/-- Witness for C9 at a concrete record, triple and feature map. -/
theorem c9_witness :
    resolveFeature [] ⟨"f", "g", .int 7⟩ = pyToFloat (.int 7) ∧
    (_apply_feature_map [] (.dict [("features", .list [.str "a"])])).isSome = true ∧
    (normNestedItem "n" (.dict [("path", .str "p")])).default = .int 0 := by
  have h := c9_feature_resolution
  refine ⟨h.1 [] ⟨"f", "g", .int 7⟩ rfl,
    h.2.2.2.2.1 [] (.dict [("features", .list [.str "a"])]) [⟨"a", "a", .int 0⟩] rfl ?_,
    (h.2.2.2.2.2 [("path", .str "p")] rfl).2.2 "n"⟩
  intro it hit
  rcases List.mem_singleton.mp hit with rfl
  rfl

/-! ## C1: feature-name order versus extracted key order -/

theorem applyMap_keys (canon : List (String × PyVal)) :
    ∀ (l : List FeatSpec) (out res : List (String × ℚ)),
      (out.map Prod.fst ++ l.map FeatSpec.name).Nodup →
      (l.foldlM (fun out item => (resolveFeature canon item).map
        (fun q => dinsert out item.name q)) out) = some res →
      res.map Prod.fst = out.map Prod.fst ++ l.map FeatSpec.name := by
  intro l
  induction l with
  | nil =>
      intro out res _ hres
      simp only [List.foldlM_nil, Option.pure_def] at hres
      cases hres
      simp
  | cons it rest ih =>
      intro out res hnd hres
      rw [List.foldlM_cons] at hres
      cases hq : resolveFeature canon it with
      | none =>
          rw [hq] at hres
          simp at hres
      | some q =>
          rw [hq] at hres
          have hres' : rest.foldlM (fun out item => (resolveFeature canon item).map
              (fun q => dinsert out item.name q)) (dinsert out it.name q) = some res := hres
          have hnotin : it.name ∉ out.map Prod.fst := fun hmem =>
            (List.nodup_append.mp hnd).2.2 hmem (by simp)
          have hkeys : (dinsert out it.name q).map Prod.fst =
              out.map Prod.fst ++ [it.name] := by
            rw [keys_dinsert]
            unfold insKey
            rw [if_neg hnotin]
          have hnd' : ((dinsert out it.name q).map Prod.fst ++
              rest.map FeatSpec.name).Nodup := by
            rw [hkeys, List.append_assoc]
            simpa using hnd
          have h3 := ih (dinsert out it.name q) res hnd' hres'
          rw [h3, hkeys]
          simp

/-- C1 (amended): whenever the normalized feature names are pairwise
distinct, the key order of the mapping produced by the feature-map
application equals the name order of the normalized spec — hence
`extract_features` and `get_feature_names` agree index for index, and they
also agree on the default compact schema when no feature map is
configured.  Without distinctness the claim is false (see the
counterexample): a duplicated name is listed twice by `get_feature_names`
but occupies a single dict slot in `extract_features`. -/
theorem c1_name_alignment :
    (∀ (canon : List (String × PyVal)) (fmap : PyVal) (flist : List FeatSpec)
        (out : List (String × ℚ)),
        _norm_features_spec fmap = some flist →
        (flist.map FeatSpec.name).Nodup →
        _apply_feature_map canon fmap = some out →
        out.map Prod.fst = flist.map FeatSpec.name) ∧
    (∀ (alert fmap : PyVal) (feats : List (String × ℚ)) (names : List String),
        pyTruthy fmap = true →
        (∀ flist, _norm_features_spec fmap = some flist →
          (flist.map FeatSpec.name).Nodup) →
        extract_features alert fmap = some feats →
        get_feature_names fmap = some names →
        feats.map Prod.fst = names) ∧
    (∀ (canon : List (String × PyVal)),
        (defaultFeatures canon).map Prod.fst = defaultFeatureNames) ∧
    (∀ (alert fmap : PyVal) (feats : List (String × ℚ)) (names : List String),
        pyTruthy fmap = false →
        extract_features alert fmap = some feats →
        get_feature_names fmap = some names →
        feats.map Prod.fst = names) := by
  have main1 : ∀ (canon : List (String × PyVal)) (fmap : PyVal) (flist : List FeatSpec)
      (out : List (String × ℚ)),
      _norm_features_spec fmap = some flist →
      (flist.map FeatSpec.name).Nodup →
      _apply_feature_map canon fmap = some out →
      out.map Prod.fst = flist.map FeatSpec.name := by
    intro canon fmap flist out hn hnd happ
    simp only [_apply_feature_map, hn, obind_some_left] at happ
    have h2 := applyMap_keys canon flist [] out (by simpa using hnd) happ
    simpa using h2
  refine ⟨main1, ?_, fun canon => rfl, ?_⟩
  · intro alert fmap feats names htr hnd hext hget
    simp only [extract_features] at hext
    rw [obind_eq_some] at hext
    obtain ⟨c0, hc0, hext⟩ := hext
    rw [obind_eq_some] at hext
    obtain ⟨canon, hcanon, hext⟩ := hext
    rw [if_pos htr] at hext
    simp only [get_feature_names] at hget
    rw [if_pos htr] at hget
    rw [Option.map_eq_some'] at hget
    obtain ⟨flist, hfl, hnames⟩ := hget
    exact (main1 canon fmap flist feats hfl (hnd flist hfl) hext).trans hnames
  · intro alert fmap feats names hfalse hext hget
    simp only [extract_features, hfalse, Bool.false_eq_true, if_false] at hext
    rw [obind_eq_some] at hext
    obtain ⟨c0, hc0, hext⟩ := hext
    rw [obind_eq_some] at hext
    obtain ⟨canon, hcanon, hext⟩ := hext
    cases hext
    simp only [get_feature_names, hfalse, Bool.false_eq_true, if_false] at hget
    cases hget
    rfl

/-- C1 counterexample: with the duplicated name list `["a", "a"]` the name
list has two entries but the extracted mapping has a single key, so the two
orders cannot agree index for index. -/
theorem c1_counterexample :
    get_feature_names (.dict [("features", .list [.str "a", .str "a"])]) =
      some ["a", "a"] ∧
    extract_features (.dict []) (.dict [("features", .list [.str "a", .str "a"])]) =
      some [("a", 0)] := by
  refine ⟨rfl, by with_unfolding_all rfl⟩

/-- Witness for C1 at a concrete record and single-feature map. -/
theorem c1_witness :
    ([("a", (0 : ℚ))] : List (String × ℚ)).map Prod.fst =
      ([⟨"a", "a", .int 0⟩] : List FeatSpec).map FeatSpec.name := by
  exact c1_name_alignment.1 [] (.dict [("features", .list [.str "a"])])
    [⟨"a", "a", .int 0⟩] [("a", 0)] rfl (by simp) (by with_unfolding_all rfl)

/-! ## C2: canonicalization on well-shaped alerts -/

theorem pyGet_dict (kvs : List (String × PyVal)) (k : String) (d : PyVal) :
    pyGet (.dict kvs) k d = some ((dget kvs k).getD d) := rfl

theorem pyOr_pos {a : PyVal} (b : PyVal) (h : pyTruthy a = true) : pyOr a b = a := by
  simp [pyOr, h]

theorem pyOr_neg {a : PyVal} (b : PyVal) (h : pyTruthy a = false) : pyOr a b = b := by
  simp [pyOr, h]

theorem pyLower_pyOr_str {v : PyVal} (d : String) (h : strOrFalsy v = true) :
    (pyLower (pyOr v (.str d))).isSome = true := by
  by_cases ht : pyTruthy v = true
  · rw [pyOr_pos _ ht]
    unfold strOrFalsy at h
    rw [ht] at h
    simp only [Bool.not_true, Bool.false_or] at h
    cases v <;> simp [isStrV] at h <;> simp [pyLower]
  · rw [pyOr_neg _ (by simpa using ht)]
    simp [pyLower]

theorem pyGet_pyOr_dict {v : PyVal} (h : dictOrFalsy v = true) (k : String) (d : PyVal) :
    (pyGet (pyOr v (.dict [])) k d).isSome = true := by
  by_cases ht : pyTruthy v = true
  · rw [pyOr_pos _ ht]
    unfold dictOrFalsy at h
    rw [ht] at h
    simp only [Bool.not_true, Bool.false_or] at h
    cases v <;> simp at h <;> simp [pyGet]
  · rw [pyOr_neg _ (by simpa using ht)]
    simp [pyGet]

theorem asDict_pyOr_dict {v : PyVal} (h : dictOrFalsy v = true) :
    (asDict (pyOr v (.dict []))).isSome = true := by
  by_cases ht : pyTruthy v = true
  · rw [pyOr_pos _ ht]
    unfold dictOrFalsy at h
    rw [ht] at h
    simp only [Bool.not_true, Bool.false_or] at h
    cases v <;> simp at h <;> simp [asDict]
  · rw [pyOr_neg _ (by simpa using ht)]
    simp [asDict]

theorem norm_service_isSome (port : ℤ) {v : PyVal} (h : goodServiceV v = true) :
    (_norm_service port v).isSome = true := by
  unfold _norm_service
  unfold goodServiceV at h
  cases hv : pyOr v (.str "") <;> rw [hv] at h <;> simp at h <;> rfl

theorem dictOrFalsy_of_goodNamed {v : PyVal} (h : goodNamed v = true) :
    dictOrFalsy v = true := by
  unfold goodNamed at h
  unfold dictOrFalsy
  cases ht : pyTruthy v
  · simp
  · rw [ht] at h
    simp only [Bool.not_true, Bool.false_or] at h ⊢
    cases v <;> simp_all [isStrV]

theorem dictOrFalsy_of_goodRule {v : PyVal} (h : goodRuleV v = true) :
    dictOrFalsy v = true := by
  unfold goodRuleV at h
  unfold dictOrFalsy
  cases ht : pyTruthy v
  · simp
  · rw [ht] at h
    simp only [Bool.not_true, Bool.false_or] at h ⊢
    cases v <;> simp_all

theorem dictOrFalsy_of_goodData {v : PyVal} (h : goodDataV v = true) :
    dictOrFalsy v = true := by
  unfold goodDataV at h
  unfold dictOrFalsy
  cases ht : pyTruthy v
  · simp
  · rw [ht] at h
    simp only [Bool.not_true, Bool.false_or] at h ⊢
    cases v <;> simp_all

theorem lowerName_core {v0 : PyVal} (h : goodNamed v0 = true) :
    (obind (pyGet (pyOr v0 (.dict [])) "name" (.str "")) fun nm => pyLower nm).isSome
      = true := by
  by_cases ht : pyTruthy v0 = true
  · rw [pyOr_pos _ ht]
    unfold goodNamed at h
    rw [ht] at h
    simp only [Bool.not_true, Bool.false_or] at h
    cases v0 with
    | dict kvs2 =>
        have h2 : isStrV ((dget kvs2 "name").getD (.str "")) = true := h
        simp only [pyGet_dict, obind_some_left]
        cases hnm : (dget kvs2 "name").getD (.str "") <;> rw [hnm] at h2 <;>
          simp [isStrV] at h2 <;> simp [pyLower]
    | none => simp at h
    | bool b => simp at h
    | int n => simp at h
    | float q => simp at h
    | str s => simp at h
    | list xs => simp at h
  · rw [pyOr_neg _ (by simpa using ht)]
    rfl

theorem lowerNameOf_isSome (kvs : List (String × PyVal)) (f : String)
    (h : goodNamed ((dget kvs f).getD (.dict [])) = true) :
    (lowerNameOf (.dict kvs) f).isSome = true := by
  unfold lowerNameOf
  simp only [pyGet_dict, obind_some_left]
  exact lowerName_core h

theorem mapM_aux_pyLower_isSome : ∀ (es : List PyVal), es.all isStrV = true →
    (es.mapM' pyLower).isSome = true := by
  intro es
  induction es with
  | nil => intro _; rfl
  | cons e rest ih =>
      intro h
      simp only [List.all_cons, Bool.and_eq_true] at h
      obtain ⟨h1, h2⟩ := h
      obtain ⟨l, hl⟩ := Option.isSome_iff_exists.mp (ih h2)
      cases e <;> simp [isStrV] at h1
      rename_i s
      simp [List.mapM'_cons, pyLower, hl]

theorem mapM_pyLower_isSome {es : List PyVal} (h : es.all isStrV = true) :
    (es.mapM pyLower).isSome = true := by
  rw [← List.mapM'_eq_mapM]
  exact mapM_aux_pyLower_isSome es h

theorem groupsVal_core {g0 : PyVal} (h : goodGroupsV g0 = true) :
    (obind (pyIter (pyOr g0 (.list []))) fun elems => elems.mapM pyLower).isSome
      = true := by
  unfold goodGroupsV at h
  cases hg : pyOr g0 (.list []) with
  | list es =>
      rw [hg] at h
      simp only [pyIter, obind_some_left]
      exact mapM_pyLower_isSome h
  | none => rw [hg] at h; simp at h
  | bool b => rw [hg] at h; simp at h
  | int n => rw [hg] at h; simp at h
  | float q => rw [hg] at h; simp at h
  | str s => rw [hg] at h; simp at h
  | dict kvs2 => rw [hg] at h; simp at h

theorem lowerGroupsOf_isSome (kvs : List (String × PyVal))
    (h : goodRuleV ((dget kvs "rule").getD (.dict [])) = true) :
    (lowerGroupsOf (.dict kvs)).isSome = true := by
  unfold lowerGroupsOf
  simp only [pyGet_dict, obind_some_left]
  by_cases ht : pyTruthy ((dget kvs "rule").getD (.dict [])) = true
  · unfold goodRuleV at h
    rw [ht] at h
    simp only [Bool.not_true, Bool.false_or] at h
    rw [pyOr_pos _ ht]
    cases hr : (dget kvs "rule").getD (.dict []) with
    | dict rkvs =>
        rw [hr] at h
        simp only [pyGet_dict, obind_some_left]
        exact groupsVal_core h
    | none => rw [hr] at h; simp at h
    | bool b => rw [hr] at h; simp at h
    | int n => rw [hr] at h; simp at h
    | float q => rw [hr] at h; simp at h
    | str s => rw [hr] at h; simp at h
    | list xs => rw [hr] at h; simp at h
  · rw [pyOr_neg _ (by simpa using ht)]
    rfl

theorem winDirect {w0 : PyVal} (h : goodWinV w0 = true) :
    (pyGet w0 "event" PyVal.none).isSome = true := by
  cases w0 <;> simp [goodWinV] at h <;> simp [pyGet]

theorem winAccess {w0 : PyVal} (h : goodWinV w0 = true) :
    ∃ ev, pyGet (pyOr w0 (.dict [])) "event" (.dict []) = some ev ∧
      dictOrFalsy ev = true := by
  cases w0 with
  | dict wkvs =>
      unfold goodWinV at h
      by_cases ht : pyTruthy (.dict wkvs) = true
      · rw [pyOr_pos _ ht]
        exact ⟨_, rfl, h⟩
      · rw [pyOr_neg _ (by simpa using ht)]
        exact ⟨.dict [], rfl, rfl⟩
  | none => simp [goodWinV] at h
  | bool b => simp [goodWinV] at h
  | int n => simp [goodWinV] at h
  | float q => simp [goodWinV] at h
  | str s => simp [goodWinV] at h
  | list xs => simp [goodWinV] at h

theorem dataDict_of_good {dv : PyVal} (h : goodDataV dv = true) :
    ∃ d, asDict (pyOr dv (.dict [])) = some d ∧
      strOrFalsy ((dget d "action").getD .none) = true ∧
      strOrFalsy ((dget d "subtype").getD .none) = true ∧
      goodServiceV ((dget d "service").getD (.str "")) = true := by
  by_cases ht : pyTruthy dv = true
  · unfold goodDataV at h
    rw [ht] at h
    simp only [Bool.not_true, Bool.false_or] at h
    rw [pyOr_pos _ ht]
    cases dv with
    | dict kd =>
        simp only [Bool.and_eq_true] at h
        exact ⟨kd, rfl, h.1.1, h.1.2, h.2⟩
    | none => simp at h
    | bool b => simp at h
    | int n => simp at h
    | float q => simp at h
    | str s => simp at h
    | list xs => simp at h
  · rw [pyOr_neg _ (by simpa using ht)]
    exact ⟨[], rfl, rfl, rfl, rfl⟩

theorem ruleDict_of_good {rv : PyVal} (h : goodRuleV rv = true) :
    (asDict (pyOr rv (.dict []))).isSome = true :=
  asDict_pyOr_dict (dictOrFalsy_of_goodRule h)

theorem map_network_vals_isSome (kvs : List (String × PyVal))
    (hdata : goodDataV ((dget kvs "data").getD (.dict [])) = true)
    (hrule : goodRuleV ((dget kvs "rule").getD (.dict [])) = true)
    (hag : goodNamed ((dget kvs "agent").getD (.dict [])) = true) :
    (_map_network_like_vals (.dict kvs)).isSome = true := by
  obtain ⟨d, hd, hact, hsub, hsvc⟩ := dataDict_of_good hdata
  obtain ⟨r, hr⟩ := Option.isSome_iff_exists.mp (ruleDict_of_good hrule)
  unfold _map_network_like_vals
  simp only [pyGet_dict, obind_some_left, hd, hr]
  obtain ⟨svc, hsvc2⟩ := Option.isSome_iff_exists.mp
    (norm_service_isSome (_to_int ((dget d "dstport").getD PyVal.none) 0) hsvc)
  rw [hsvc2]
  simp only [obind_some_left]
  obtain ⟨actStr, hact2⟩ := Option.isSome_iff_exists.mp (pyLower_pyOr_str "" hact)
  rw [hact2]
  simp only [obind_some_left]
  obtain ⟨subStr, hsub2⟩ := Option.isSome_iff_exists.mp (pyLower_pyOr_str "na" hsub)
  rw [hsub2]
  simp only [obind_some_left]
  by_cases hdev : pyTruthy ((dget d "devname").getD PyVal.none) = true
  · rw [if_pos hdev]
    rfl
  · rw [if_neg hdev]
    obtain ⟨host, hh⟩ := Option.isSome_iff_exists.mp
      (pyGet_pyOr_dict (dictOrFalsy_of_goodNamed hag) "name" (.str ""))
    rw [hh]
    rfl

theorem map_windows_vals_isSome (kvs : List (String × PyVal))
    (hwin : goodWinV ((dget kvs "win").getD (.dict [])) = true)
    (hrule : goodRuleV ((dget kvs "rule").getD (.dict [])) = true)
    (hag : goodNamed ((dget kvs "agent").getD (.dict [])) = true) :
    (_map_windows_vals (.dict kvs)).isSome = true := by
  obtain ⟨ev, hev, hevD⟩ := winAccess hwin
  unfold _map_windows_vals
  simp only [pyGet_dict, obind_some_left, hev]
  obtain ⟨win, hwin2⟩ := Option.isSome_iff_exists.mp (asDict_pyOr_dict hevD)
  rw [hwin2]
  simp only [obind_some_left]
  obtain ⟨levelV, hlev⟩ := Option.isSome_iff_exists.mp
    (pyGet_pyOr_dict (dictOrFalsy_of_goodRule hrule) "level" PyVal.none)
  rw [hlev]
  simp only [obind_some_left]
  obtain ⟨agname, hagn⟩ := Option.isSome_iff_exists.mp
    (pyGet_pyOr_dict (dictOrFalsy_of_goodNamed hag) "name" (.str ""))
  rw [hagn]
  rfl

theorem map_linux_vals_isSome (kvs : List (String × PyVal))
    (hfl : strOrFalsy ((dget kvs "full_log").getD .none) = true)
    (hrule : goodRuleV ((dget kvs "rule").getD (.dict [])) = true)
    (hag : goodNamed ((dget kvs "agent").getD (.dict [])) = true) :
    (_map_linux_vals (.dict kvs)).isSome = true := by
  unfold _map_linux_vals
  simp only [pyGet_dict, obind_some_left]
  obtain ⟨msg, hmsg⟩ := Option.isSome_iff_exists.mp (pyLower_pyOr_str "" hfl)
  rw [hmsg]
  simp only [obind_some_left]
  obtain ⟨levelV, hlev⟩ := Option.isSome_iff_exists.mp
    (pyGet_pyOr_dict (dictOrFalsy_of_goodRule hrule) "level" PyVal.none)
  rw [hlev]
  simp only [obind_some_left]
  obtain ⟨agname, hagn⟩ := Option.isSome_iff_exists.mp
    (pyGet_pyOr_dict (dictOrFalsy_of_goodNamed hag) "name" (.str ""))
  rw [hagn]
  rfl

theorem map_openstack_vals_isSome (kvs : List (String × PyVal))
    (hdata : goodDataV ((dget kvs "data").getD (.dict [])) = true)
    (hrule : goodRuleV ((dget kvs "rule").getD (.dict [])) = true) :
    (_map_openstack_vals (.dict kvs)).isSome = true := by
  obtain ⟨d, hd, _, _, _⟩ := dataDict_of_good hdata
  unfold _map_openstack_vals
  simp only [pyGet_dict, obind_some_left, hd]
  obtain ⟨levelV, hlev⟩ := Option.isSome_iff_exists.mp
    (pyGet_pyOr_dict (dictOrFalsy_of_goodRule hrule) "level" PyVal.none)
  rw [hlev]
  rfl

theorem map_generic_vals_isSome (kvs : List (String × PyVal))
    (hdata : goodDataV ((dget kvs "data").getD (.dict [])) = true)
    (hrule : goodRuleV ((dget kvs "rule").getD (.dict [])) = true)
    (hag : goodNamed ((dget kvs "agent").getD (.dict [])) = true) :
    (_map_generic_vals (.dict kvs)).isSome = true := by
  obtain ⟨d, hd, hact, hsub, hsvc⟩ := dataDict_of_good hdata
  obtain ⟨r, hr⟩ := Option.isSome_iff_exists.mp (ruleDict_of_good hrule)
  unfold _map_generic_vals
  simp only [pyGet_dict, obind_some_left, hd, hr]
  obtain ⟨actStr, hact2⟩ := Option.isSome_iff_exists.mp (pyLower_pyOr_str "na" hact)
  rw [hact2]
  simp only [obind_some_left]
  obtain ⟨subStr, hsub2⟩ := Option.isSome_iff_exists.mp (pyLower_pyOr_str "na" hsub)
  rw [hsub2]
  simp only [obind_some_left]
  obtain ⟨svc, hsvc2⟩ := Option.isSome_iff_exists.mp
    (norm_service_isSome (_to_int ((dget d "dstport").getD PyVal.none) 0) hsvc)
  rw [hsvc2]
  simp only [obind_some_left]
  obtain ⟨agname, hagn⟩ := Option.isSome_iff_exists.mp
    (pyGet_pyOr_dict (dictOrFalsy_of_goodNamed hag) "name" (.str ""))
  rw [hagn]
  rfl

theorem detect_isSome (kvs : List (String × PyVal))
    (hdec : goodNamed ((dget kvs "decoder").getD (.dict [])) = true)
    (hag : goodNamed ((dget kvs "agent").getD (.dict [])) = true)
    (hrule : goodRuleV ((dget kvs "rule").getD (.dict [])) = true)
    (hdata : goodDataV ((dget kvs "data").getD (.dict [])) = true)
    (hwin : goodWinV ((dget kvs "win").getD (.dict [])) = true) :
    (_detect_source (.dict kvs)).isSome = true := by
  unfold _detect_source
  obtain ⟨dec, h1⟩ := Option.isSome_iff_exists.mp (lowerNameOf_isSome kvs "decoder" hdec)
  rw [h1]
  simp only [obind_some_left]
  obtain ⟨groups, h2⟩ := Option.isSome_iff_exists.mp (lowerGroupsOf_isSome kvs hrule)
  rw [h2]
  simp only [obind_some_left]
  obtain ⟨agent, h3⟩ := Option.isSome_iff_exists.mp (lowerNameOf_isSome kvs "agent" hag)
  rw [h3]
  simp only [obind_some_left]
  obtain ⟨ev, hev⟩ := Option.isSome_iff_exists.mp (winDirect hwin)
  obtain ⟨devid, hdev⟩ := Option.isSome_iff_exists.mp
    (pyGet_pyOr_dict (dictOrFalsy_of_goodData hdata) "devid" PyVal.none)
  obtain ⟨st, hst⟩ := Option.isSome_iff_exists.mp
    (pyGet_pyOr_dict (dictOrFalsy_of_goodData hdata) "subtype" PyVal.none)
  simp only [pyGet_dict, obind_some_left, hev, hdev, hst]
  split_ifs <;> rfl

theorem map_network_isSome (kvs : List (String × PyVal))
    (hdata : goodDataV ((dget kvs "data").getD (.dict [])) = true)
    (hrule : goodRuleV ((dget kvs "rule").getD (.dict [])) = true)
    (hag : goodNamed ((dget kvs "agent").getD (.dict [])) = true) :
    (_map_network_like (.dict kvs)).isSome = true := by
  unfold _map_network_like
  obtain ⟨v, hv⟩ := Option.isSome_iff_exists.mp (map_network_vals_isSome kvs hdata hrule hag)
  rw [hv]
  rfl

theorem map_windows_isSome (kvs : List (String × PyVal))
    (hwin : goodWinV ((dget kvs "win").getD (.dict [])) = true)
    (hrule : goodRuleV ((dget kvs "rule").getD (.dict [])) = true)
    (hag : goodNamed ((dget kvs "agent").getD (.dict [])) = true) :
    (_map_windows (.dict kvs)).isSome = true := by
  unfold _map_windows
  obtain ⟨v, hv⟩ := Option.isSome_iff_exists.mp (map_windows_vals_isSome kvs hwin hrule hag)
  rw [hv]
  rfl

theorem map_linux_isSome (kvs : List (String × PyVal))
    (hfl : strOrFalsy ((dget kvs "full_log").getD .none) = true)
    (hrule : goodRuleV ((dget kvs "rule").getD (.dict [])) = true)
    (hag : goodNamed ((dget kvs "agent").getD (.dict [])) = true) :
    (_map_linux (.dict kvs)).isSome = true := by
  unfold _map_linux
  obtain ⟨v, hv⟩ := Option.isSome_iff_exists.mp (map_linux_vals_isSome kvs hfl hrule hag)
  rw [hv]
  rfl

theorem map_openstack_isSome (kvs : List (String × PyVal))
    (hdata : goodDataV ((dget kvs "data").getD (.dict [])) = true)
    (hrule : goodRuleV ((dget kvs "rule").getD (.dict [])) = true) :
    (_map_openstack (.dict kvs)).isSome = true := by
  unfold _map_openstack
  obtain ⟨v, hv⟩ := Option.isSome_iff_exists.mp (map_openstack_vals_isSome kvs hdata hrule)
  rw [hv]
  rfl

theorem map_generic_isSome (kvs : List (String × PyVal))
    (hdata : goodDataV ((dget kvs "data").getD (.dict [])) = true)
    (hrule : goodRuleV ((dget kvs "rule").getD (.dict [])) = true)
    (hag : goodNamed ((dget kvs "agent").getD (.dict [])) = true) :
    (_map_generic (.dict kvs)).isSome = true := by
  unfold _map_generic
  obtain ⟨v, hv⟩ := Option.isSome_iff_exists.mp (map_generic_vals_isSome kvs hdata hrule hag)
  rw [hv]
  rfl

/-- C2 (amended): on every structurally well-shaped alert — a mapping whose
`decoder`, `agent`, `rule`, `data`, `win` and `full_log` entries have the
shapes the pipeline dereferences without a type guard — canonicalization
returns a canonical record and raises no exception, with every absent field
degrading to its documented default through the `get`/`or` guards of the
embedding.  The claim's unrestricted form is false: a non-mapping under
`decoder` (and several other spots, e.g. a falsy non-mapping under `win`,
which is read without an `or {}` guard) raises, see the counterexample. -/
theorem c2_canonicalize_total (alert : PyVal) (h : WellShaped alert = true) :
    (_canonicalize alert).isSome = true := by
  cases alert with
  | dict kvs =>
      simp only [WellShaped, Bool.and_eq_true] at h
      obtain ⟨⟨⟨⟨⟨hdec, hag⟩, hrule⟩, hdata⟩, hwin⟩, hfl⟩ := h
      unfold _canonicalize
      obtain ⟨src, hsrc⟩ := Option.isSome_iff_exists.mp
        (detect_isSome kvs hdec hag hrule hdata hwin)
      rw [hsrc]
      simp only [obind_some_left]
      split_ifs
      · obtain ⟨b, hb⟩ := Option.isSome_iff_exists.mp
          (map_network_isSome kvs hdata hrule hag)
        rw [hb]
        rfl
      · obtain ⟨b, hb⟩ := Option.isSome_iff_exists.mp
          (map_windows_isSome kvs hwin hrule hag)
        rw [hb]
        rfl
      · obtain ⟨b, hb⟩ := Option.isSome_iff_exists.mp
          (map_linux_isSome kvs hfl hrule hag)
        rw [hb]
        rfl
      · obtain ⟨b, hb⟩ := Option.isSome_iff_exists.mp
          (map_openstack_isSome kvs hdata hrule)
        rw [hb]
        rfl
      · obtain ⟨b, hb⟩ := Option.isSome_iff_exists.mp
          (map_generic_isSome kvs hdata hrule hag)
        rw [hb]
        rfl
  | none => simp [WellShaped] at h
  | bool b => simp [WellShaped] at h
  | int n => simp [WellShaped] at h
  | float q => simp [WellShaped] at h
  | str s => simp [WellShaped] at h
  | list xs => simp [WellShaped] at h

/-- C2 counterexample: a string under `decoder` makes `_detect_source` call
`.get` on a string (`(alert.get("decoder", {}) or {}).get("name", "")` with
a truthy non-mapping), so canonicalization raises `AttributeError` instead
of returning a record. -/
theorem c2_counterexample :
    _canonicalize (.dict [("decoder", .str "syslog")]) = Option.none := rfl

/-- Witness for C2 at the spec's concrete network-style alert. -/
theorem c2_witness :
    (_canonicalize (.dict [("rule", .dict [("level", .int 14)]),
      ("data", .dict [("dstport", .int 3389), ("action", .str "allow"),
        ("sentbyte", .int 900000)])])).isSome = true := by
  exact c2_canonicalize_total (.dict [("rule", .dict [("level", .int 14)]),
    ("data", .dict [("dstport", .int 3389), ("action", .str "allow"),
      ("sentbyte", .int 900000)])]) (by rfl)

/-! ## C3: presence of the documented schema keys -/

theorem dget_dinsert_isSome {α : Type} (d : List (String × α)) (k k2 : String) (v : α)
    (h : (dget d k2).isSome = true) : (dget (dinsert d k v) k2).isSome = true := by
  rw [dget_dinsert]
  split_ifs
  · rfl
  · exact h

theorem network_base_keys {alert : PyVal} {base : List (String × PyVal)}
    (h : _map_network_like alert = some base) :
    (∀ k ∈ baseKeys, (dget base k).isSome = true) ∧
    dget base "platform_source" = some (.str "network") ∧
    dget base "auth_result" = Option.none := by
  unfold _map_network_like at h
  rw [Option.map_eq_some'] at h
  obtain ⟨v, hv, hb⟩ := h
  subst hb
  refine ⟨?_, rfl, rfl⟩
  intro k hk
  simp only [baseKeys] at hk
  fin_cases hk <;> rfl

theorem windows_base_keys {alert : PyVal} {base : List (String × PyVal)}
    (h : _map_windows alert = some base) :
    (∀ k ∈ baseKeys, (dget base k).isSome = true) ∧
    dget base "platform_source" = some (.str "windows") ∧
    (dget base "auth_result").isSome = true := by
  unfold _map_windows at h
  rw [Option.map_eq_some'] at h
  obtain ⟨v, hv, hb⟩ := h
  subst hb
  refine ⟨?_, rfl, rfl⟩
  intro k hk
  simp only [baseKeys] at hk
  fin_cases hk <;> rfl

theorem linux_base_keys {alert : PyVal} {base : List (String × PyVal)}
    (h : _map_linux alert = some base) :
    (∀ k ∈ baseKeys, (dget base k).isSome = true) ∧
    dget base "platform_source" = some (.str "linux") ∧
    (dget base "auth_result").isSome = true := by
  unfold _map_linux at h
  rw [Option.map_eq_some'] at h
  obtain ⟨v, hv, hb⟩ := h
  subst hb
  refine ⟨?_, rfl, rfl⟩
  intro k hk
  simp only [baseKeys] at hk
  fin_cases hk <;> rfl

theorem openstack_base_keys {alert : PyVal} {base : List (String × PyVal)}
    (h : _map_openstack alert = some base) :
    (∀ k ∈ baseKeys, (dget base k).isSome = true) ∧
    dget base "platform_source" = some (.str "openstack") ∧
    (dget base "auth_result").isSome = true := by
  unfold _map_openstack at h
  rw [Option.map_eq_some'] at h
  obtain ⟨v, hv, hb⟩ := h
  subst hb
  refine ⟨?_, rfl, rfl⟩
  intro k hk
  simp only [baseKeys] at hk
  fin_cases hk <;> rfl

theorem generic_base_keys {alert : PyVal} {base : List (String × PyVal)}
    (h : _map_generic alert = some base) :
    (∀ k ∈ baseKeys, (dget base k).isSome = true) ∧
    dget base "platform_source" = some (.str "generic") ∧
    dget base "auth_result" = Option.none := by
  unfold _map_generic at h
  rw [Option.map_eq_some'] at h
  obtain ⟨v, hv, hb⟩ := h
  subst hb
  refine ⟨?_, rfl, rfl⟩
  intro k hk
  simp only [baseKeys] at hk
  fin_cases hk <;> rfl

theorem dget_canonTail_platform (src : String) (base : List (String × PyVal)) :
    dget (canonTail src base) "platform_source" = dget base "platform_source" := by
  simp [canonTail, _platform_flags, List.foldl_cons, List.foldl_nil, dget_dinsert]

theorem dget_canonTail_auth (src : String) (base : List (String × PyVal)) :
    dget (canonTail src base) "auth_result" = dget base "auth_result" := by
  simp [canonTail, _platform_flags, List.foldl_cons, List.foldl_nil, dget_dinsert]

/-- C3 (amended): every canonical record that `_canonicalize` returns
contains every key of the 24-key core schema (the 16 keys written by every
per-source mapper plus the 8 keys added by the shared tail); `auth_result`
is present whenever the platform source is windows, linux or openstack.
The claim's "auth_result is present for every source platform" is false:
the network and generic mappers never write it (see the counterexample,
where the empty alert canonicalizes without an `auth_result` key). -/
theorem c3_schema_keys :
    (∀ (alert : PyVal) (canon : List (String × PyVal)),
        _canonicalize alert = some canon →
        ∀ k ∈ coreSchemaKeys, (dget canon k).isSome = true) ∧
    (∀ (alert : PyVal) (canon : List (String × PyVal)),
        _canonicalize alert = some canon →
        (dget canon "platform_source" = some (.str "windows") ∨
         dget canon "platform_source" = some (.str "linux") ∨
         dget canon "platform_source" = some (.str "openstack")) →
        (dget canon "auth_result").isSome = true) := by
  constructor
  · intro alert canon hc k hk
    unfold _canonicalize at hc
    rw [obind_eq_some] at hc
    obtain ⟨src, hsrc, hc⟩ := hc
    rw [obind_eq_some] at hc
    obtain ⟨base, hbase, hc⟩ := hc
    cases hc
    have hbk : ∀ k2 ∈ baseKeys, (dget base k2).isSome = true := by
      split_ifs at hbase
      · exact (network_base_keys hbase).1
      · exact (windows_base_keys hbase).1
      · exact (linux_base_keys hbase).1
      · exact (openstack_base_keys hbase).1
      · exact (generic_base_keys hbase).1
    simp only [coreSchemaKeys, List.mem_append] at hk
    rcases hk with hk | hk
    · have hbase2 := hbk k hk
      unfold canonTail
      simp only [_platform_flags, List.foldl_cons, List.foldl_nil]
      repeat apply dget_dinsert_isSome
      exact hbase2
    · simp only [tailKeys] at hk
      fin_cases hk <;>
        simp [canonTail, _platform_flags, List.foldl_cons, List.foldl_nil, dget_dinsert]
  · intro alert canon hc htag
    unfold _canonicalize at hc
    rw [obind_eq_some] at hc
    obtain ⟨src, hsrc, hc⟩ := hc
    rw [obind_eq_some] at hc
    obtain ⟨base, hbase, hc⟩ := hc
    cases hc
    rw [dget_canonTail_platform] at htag
    rw [dget_canonTail_auth]
    split_ifs at hbase
    · rw [(network_base_keys hbase).2.1] at htag
      rcases htag with h3 | h3 | h3 <;> simp at h3
    · exact (windows_base_keys hbase).2.2
    · exact (linux_base_keys hbase).2.2
    · exact (openstack_base_keys hbase).2.2
    · rw [(generic_base_keys hbase).2.1] at htag
      rcases htag with h3 | h3 | h3 <;> simp at h3

/-- C3 counterexample: the empty alert canonicalizes to a (generic) record
with no `auth_result` key, so the key is not present for every source
platform. -/
theorem c3_counterexample :
    ((_canonicalize (.dict [])).map (fun canon => (dget canon "auth_result").isSome)) =
      some false := by
  with_unfolding_all rfl

/-- Witness for C3: the `hour` core key is present on the canonicalization
of the empty alert. -/
theorem c3_witness :
    (dget ((_canonicalize (.dict [])).getD []) "hour").isSome = true := by
  exact c3_schema_keys.1 (.dict []) ((_canonicalize (.dict [])).getD [])
    (by with_unfolding_all rfl) "hour"
    (by simp [coreSchemaKeys, baseKeys, tailKeys])

end XAI
